import Mathlib

set_option maxRecDepth 8000

/-!
Shallow embedding of `src/utils/crypto.ts` (Gaana-API): the payload decoder
`decryptStreamPath`, the stream resolver `fetchStreamUrl` and `getMediaUrls`.

Bytes are modelled as `Nat` values below 256, strings as lists of Unicode
code points (`List Char` at the API surface, `List Nat` for decoded text).
The AES-128-CBC decryption performed by Node's `createDecipheriv` is embedded
as an executable AES implementation (S-box computed from the GF(2^8) inverse
and the affine transform); it is validated against the FIPS-197 and NIST
SP 800-38A test vectors further down.
-/

namespace GaanaAPI

/-! ### GF(2^8) arithmetic (the field underlying AES) -/

/-- Mask a natural number to a byte. -/
def bmask (x : Nat) : Nat := x % 256

/-- Multiplication by `x` in GF(2^8) modulo the AES polynomial `x^8+x^4+x^3+x+1`
(`0x11b`); inputs are masked to a byte first. -/
def xtime (x : Nat) : Nat :=
  let y := x % 256
  if y < 128 then 2 * y else (2 * y) % 256 ^^^ 27

/-- Multiply-accumulate loop for GF(2^8) multiplication (8 shift-and-add steps). -/
def gmulAux : Nat → Nat → Nat → Nat → Nat
  | 0, _, _, acc => acc
  | n + 1, a, b, acc => gmulAux n (xtime a) (b / 2) (if b % 2 = 1 then acc ^^^ a else acc)

/-- Multiplication in GF(2^8). -/
def gmul (a b : Nat) : Nat := gmulAux 8 (a % 256) (b % 256) 0

/-- Inverse in GF(2^8), computed as `x^254` by square-and-multiply
(`254 = 2+4+8+16+32+64+128`); `gfInv 0 = 0` as in AES. -/
def gfInv (x : Nat) : Nat :=
  let y := x % 256
  let y2 := gmul y y
  let y4 := gmul y2 y2
  let y8 := gmul y4 y4
  let y16 := gmul y8 y8
  let y32 := gmul y16 y16
  let y64 := gmul y32 y32
  let y128 := gmul y64 y64
  gmul y128 (gmul y64 (gmul y32 (gmul y16 (gmul y8 (gmul y4 y2)))))

/-- Rotate a byte left by `n` bits. -/
def rotl8 (n b : Nat) : Nat := (b % 256) * 2 ^ n % 256 ^^^ (b % 256) / 2 ^ (8 - n)

/-- The AES S-box as affine transform of the GF(2^8) inverse (the defining
formula; `sbox` below is the table form, proved equal further down). -/
def sboxGF (x : Nat) : Nat :=
  let i := gfInv x
  i ^^^ rotl8 1 i ^^^ rotl8 2 i ^^^ rotl8 3 i ^^^ rotl8 4 i ^^^ 0x63

/-- The inverse AES S-box as inverse affine transform followed by the
GF(2^8) inverse. -/
def sboxInvGF (x : Nat) : Nat :=
  gfInv (rotl8 1 x ^^^ rotl8 3 x ^^^ rotl8 6 x ^^^ 0x05)

/-- The AES S-box table. -/
def sboxTable : List Nat :=
  [99, 124, 119, 123, 242, 107, 111, 197, 48, 1, 103, 43, 254, 215, 171, 118,
   202, 130, 201, 125, 250, 89, 71, 240, 173, 212, 162, 175, 156, 164, 114, 192,
   183, 253, 147, 38, 54, 63, 247, 204, 52, 165, 229, 241, 113, 216, 49, 21,
   4, 199, 35, 195, 24, 150, 5, 154, 7, 18, 128, 226, 235, 39, 178, 117,
   9, 131, 44, 26, 27, 110, 90, 160, 82, 59, 214, 179, 41, 227, 47, 132,
   83, 209, 0, 237, 32, 252, 177, 91, 106, 203, 190, 57, 74, 76, 88, 207,
   208, 239, 170, 251, 67, 77, 51, 133, 69, 249, 2, 127, 80, 60, 159, 168,
   81, 163, 64, 143, 146, 157, 56, 245, 188, 182, 218, 33, 16, 255, 243, 210,
   205, 12, 19, 236, 95, 151, 68, 23, 196, 167, 126, 61, 100, 93, 25, 115,
   96, 129, 79, 220, 34, 42, 144, 136, 70, 238, 184, 20, 222, 94, 11, 219,
   224, 50, 58, 10, 73, 6, 36, 92, 194, 211, 172, 98, 145, 149, 228, 121,
   231, 200, 55, 109, 141, 213, 78, 169, 108, 86, 244, 234, 101, 122, 174, 8,
   186, 120, 37, 46, 28, 166, 180, 198, 232, 221, 116, 31, 75, 189, 139, 138,
   112, 62, 181, 102, 72, 3, 246, 14, 97, 53, 87, 185, 134, 193, 29, 158,
   225, 248, 152, 17, 105, 217, 142, 148, 155, 30, 135, 233, 206, 85, 40, 223,
   140, 161, 137, 13, 191, 230, 66, 104, 65, 153, 45, 15, 176, 84, 187, 22]

/-- The inverse AES S-box table. -/
def sboxInvTable : List Nat :=
  [82, 9, 106, 213, 48, 54, 165, 56, 191, 64, 163, 158, 129, 243, 215, 251,
   124, 227, 57, 130, 155, 47, 255, 135, 52, 142, 67, 68, 196, 222, 233, 203,
   84, 123, 148, 50, 166, 194, 35, 61, 238, 76, 149, 11, 66, 250, 195, 78,
   8, 46, 161, 102, 40, 217, 36, 178, 118, 91, 162, 73, 109, 139, 209, 37,
   114, 248, 246, 100, 134, 104, 152, 22, 212, 164, 92, 204, 93, 101, 182, 146,
   108, 112, 72, 80, 253, 237, 185, 218, 94, 21, 70, 87, 167, 141, 157, 132,
   144, 216, 171, 0, 140, 188, 211, 10, 247, 228, 88, 5, 184, 179, 69, 6,
   208, 44, 30, 143, 202, 63, 15, 2, 193, 175, 189, 3, 1, 19, 138, 107,
   58, 145, 17, 65, 79, 103, 220, 234, 151, 242, 207, 206, 240, 180, 230, 115,
   150, 172, 116, 34, 231, 173, 53, 133, 226, 249, 55, 232, 28, 117, 223, 110,
   71, 241, 26, 113, 29, 41, 197, 137, 111, 183, 98, 14, 170, 24, 190, 27,
   252, 86, 62, 75, 198, 210, 121, 32, 154, 219, 192, 254, 120, 205, 90, 244,
   31, 221, 168, 51, 136, 7, 199, 49, 177, 18, 16, 89, 39, 128, 236, 95,
   96, 81, 127, 169, 25, 181, 74, 13, 45, 229, 122, 159, 147, 201, 156, 239,
   160, 224, 59, 77, 174, 42, 245, 176, 200, 235, 187, 60, 131, 83, 153, 97,
   23, 43, 4, 126, 186, 119, 214, 38, 225, 105, 20, 99, 85, 33, 12, 125]

/-- The AES S-box (table lookup on the masked byte). -/
def sbox (x : Nat) : Nat := sboxTable.getD (x % 256) 0

/-- The inverse AES S-box (table lookup on the masked byte). -/
def sboxInv (x : Nat) : Nat := sboxInvTable.getD (x % 256) 0

/-! ### Byte multiplications by the MixColumns coefficients -/

/-- Multiplication by 3 in GF(2^8). -/
def gm3 (x : Nat) : Nat := xtime x ^^^ bmask x

/-- Multiplication by 9 in GF(2^8). -/
def gm9 (x : Nat) : Nat := xtime (xtime (xtime x)) ^^^ bmask x

/-- Multiplication by 11 in GF(2^8). -/
def gm11 (x : Nat) : Nat := xtime (xtime (xtime x)) ^^^ xtime x ^^^ bmask x

/-- Multiplication by 13 in GF(2^8). -/
def gm13 (x : Nat) : Nat := xtime (xtime (xtime x)) ^^^ xtime (xtime x) ^^^ bmask x

/-- Multiplication by 14 in GF(2^8). -/
def gm14 (x : Nat) : Nat := xtime (xtime (xtime x)) ^^^ xtime (xtime x) ^^^ xtime x

/-! ### The AES state

A 16-byte block in AES column-major order: byte `i` of the input is state
entry `s i`, holding row `i % 4` of column `i / 4`. -/

/-- One 16-byte AES block (fields `s0` … `s15` are the bytes in input order). -/
structure Block where
  s0 : Nat
  s1 : Nat
  s2 : Nat
  s3 : Nat
  s4 : Nat
  s5 : Nat
  s6 : Nat
  s7 : Nat
  s8 : Nat
  s9 : Nat
  s10 : Nat
  s11 : Nat
  s12 : Nat
  s13 : Nat
  s14 : Nat
  s15 : Nat
deriving DecidableEq, Repr

/-- The all-zero block. -/
def Block.zero : Block := ⟨0,0,0,0,0,0,0,0,0,0,0,0,0,0,0,0⟩

instance : Inhabited Block := ⟨Block.zero⟩

/-- All sixteen bytes of the block are below 256. -/
def BlockLt (B : Block) : Prop :=
  B.s0 < 256 ∧ B.s1 < 256 ∧ B.s2 < 256 ∧ B.s3 < 256 ∧
  B.s4 < 256 ∧ B.s5 < 256 ∧ B.s6 < 256 ∧ B.s7 < 256 ∧
  B.s8 < 256 ∧ B.s9 < 256 ∧ B.s10 < 256 ∧ B.s11 < 256 ∧
  B.s12 < 256 ∧ B.s13 < 256 ∧ B.s14 < 256 ∧ B.s15 < 256

instance (B : Block) : Decidable (BlockLt B) := by unfold BlockLt; infer_instance

/-- Byte-wise XOR of two blocks (also AES AddRoundKey). -/
def xorBlock (A B : Block) : Block :=
  ⟨A.s0 ^^^ B.s0, A.s1 ^^^ B.s1, A.s2 ^^^ B.s2, A.s3 ^^^ B.s3,
   A.s4 ^^^ B.s4, A.s5 ^^^ B.s5, A.s6 ^^^ B.s6, A.s7 ^^^ B.s7,
   A.s8 ^^^ B.s8, A.s9 ^^^ B.s9, A.s10 ^^^ B.s10, A.s11 ^^^ B.s11,
   A.s12 ^^^ B.s12, A.s13 ^^^ B.s13, A.s14 ^^^ B.s14, A.s15 ^^^ B.s15⟩

/-- AES SubBytes: the S-box applied to every byte of the state. -/
def subBytesB (B : Block) : Block :=
  ⟨sbox B.s0, sbox B.s1, sbox B.s2, sbox B.s3,
   sbox B.s4, sbox B.s5, sbox B.s6, sbox B.s7,
   sbox B.s8, sbox B.s9, sbox B.s10, sbox B.s11,
   sbox B.s12, sbox B.s13, sbox B.s14, sbox B.s15⟩

/-- AES InvSubBytes. -/
def invSubBytesB (B : Block) : Block :=
  ⟨sboxInv B.s0, sboxInv B.s1, sboxInv B.s2, sboxInv B.s3,
   sboxInv B.s4, sboxInv B.s5, sboxInv B.s6, sboxInv B.s7,
   sboxInv B.s8, sboxInv B.s9, sboxInv B.s10, sboxInv B.s11,
   sboxInv B.s12, sboxInv B.s13, sboxInv B.s14, sboxInv B.s15⟩

/-- AES ShiftRows: row `r` of the column-major state rotates left by `r`,
so output byte `r + 4c` is input byte `r + 4((c + r) % 4)`. -/
def shiftRowsB (B : Block) : Block :=
  ⟨B.s0, B.s5, B.s10, B.s15,
   B.s4, B.s9, B.s14, B.s3,
   B.s8, B.s13, B.s2, B.s7,
   B.s12, B.s1, B.s6, B.s11⟩

/-- AES InvShiftRows. -/
def invShiftRowsB (B : Block) : Block :=
  ⟨B.s0, B.s13, B.s10, B.s7,
   B.s4, B.s1, B.s14, B.s11,
   B.s8, B.s5, B.s2, B.s15,
   B.s12, B.s9, B.s6, B.s3⟩

/-- Row 0 of the MixColumns matrix `[2 3 1 1]` applied to one column. -/
def mc0 (a b c d : Nat) : Nat := xtime a ^^^ gm3 b ^^^ c ^^^ d

/-- Row 1 of the MixColumns matrix `[1 2 3 1]`. -/
def mc1 (a b c d : Nat) : Nat := a ^^^ xtime b ^^^ gm3 c ^^^ d

/-- Row 2 of the MixColumns matrix `[1 1 2 3]`. -/
def mc2 (a b c d : Nat) : Nat := a ^^^ b ^^^ xtime c ^^^ gm3 d

/-- Row 3 of the MixColumns matrix `[3 1 1 2]`. -/
def mc3 (a b c d : Nat) : Nat := gm3 a ^^^ b ^^^ c ^^^ xtime d

/-- Row 0 of the InvMixColumns matrix `[14 11 13 9]`. -/
def imc0 (a b c d : Nat) : Nat := gm14 a ^^^ gm11 b ^^^ gm13 c ^^^ gm9 d

/-- Row 1 of the InvMixColumns matrix `[9 14 11 13]`. -/
def imc1 (a b c d : Nat) : Nat := gm9 a ^^^ gm14 b ^^^ gm11 c ^^^ gm13 d

/-- Row 2 of the InvMixColumns matrix `[13 9 14 11]`. -/
def imc2 (a b c d : Nat) : Nat := gm13 a ^^^ gm9 b ^^^ gm14 c ^^^ gm11 d

/-- Row 3 of the InvMixColumns matrix `[11 13 9 14]`. -/
def imc3 (a b c d : Nat) : Nat := gm11 a ^^^ gm13 b ^^^ gm9 c ^^^ gm14 d

/-- AES MixColumns, applied to each of the four columns of the state. -/
def mixColumnsB (B : Block) : Block :=
  ⟨mc0 B.s0 B.s1 B.s2 B.s3, mc1 B.s0 B.s1 B.s2 B.s3,
   mc2 B.s0 B.s1 B.s2 B.s3, mc3 B.s0 B.s1 B.s2 B.s3,
   mc0 B.s4 B.s5 B.s6 B.s7, mc1 B.s4 B.s5 B.s6 B.s7,
   mc2 B.s4 B.s5 B.s6 B.s7, mc3 B.s4 B.s5 B.s6 B.s7,
   mc0 B.s8 B.s9 B.s10 B.s11, mc1 B.s8 B.s9 B.s10 B.s11,
   mc2 B.s8 B.s9 B.s10 B.s11, mc3 B.s8 B.s9 B.s10 B.s11,
   mc0 B.s12 B.s13 B.s14 B.s15, mc1 B.s12 B.s13 B.s14 B.s15,
   mc2 B.s12 B.s13 B.s14 B.s15, mc3 B.s12 B.s13 B.s14 B.s15⟩

/-- AES InvMixColumns. -/
def invMixColumnsB (B : Block) : Block :=
  ⟨imc0 B.s0 B.s1 B.s2 B.s3, imc1 B.s0 B.s1 B.s2 B.s3,
   imc2 B.s0 B.s1 B.s2 B.s3, imc3 B.s0 B.s1 B.s2 B.s3,
   imc0 B.s4 B.s5 B.s6 B.s7, imc1 B.s4 B.s5 B.s6 B.s7,
   imc2 B.s4 B.s5 B.s6 B.s7, imc3 B.s4 B.s5 B.s6 B.s7,
   imc0 B.s8 B.s9 B.s10 B.s11, imc1 B.s8 B.s9 B.s10 B.s11,
   imc2 B.s8 B.s9 B.s10 B.s11, imc3 B.s8 B.s9 B.s10 B.s11,
   imc0 B.s12 B.s13 B.s14 B.s15, imc1 B.s12 B.s13 B.s14 B.s15,
   imc2 B.s12 B.s13 B.s14 B.s15, imc3 B.s12 B.s13 B.s14 B.s15⟩

/-! ### AES-128 key schedule -/

/-- The AES round constants `x^(r-1)` in GF(2^8), indexed from 1. -/
def rconVal (r : Nat) : Nat := [0, 1, 2, 4, 8, 16, 32, 64, 128, 27, 54].getD r 0

/-- Round key `r` from round key `r - 1` (AES-128 key expansion: the last word
is rotated, substituted and xored with the round constant, then the four words
chain by XOR). -/
def nextRoundKey (r : Nat) (k : Block) : Block :=
  let t0 := sbox k.s13 ^^^ rconVal r
  let t1 := sbox k.s14
  let t2 := sbox k.s15
  let t3 := sbox k.s12
  let w00 := k.s0 ^^^ t0
  let w01 := k.s1 ^^^ t1
  let w02 := k.s2 ^^^ t2
  let w03 := k.s3 ^^^ t3
  let w10 := k.s4 ^^^ w00
  let w11 := k.s5 ^^^ w01
  let w12 := k.s6 ^^^ w02
  let w13 := k.s7 ^^^ w03
  let w20 := k.s8 ^^^ w10
  let w21 := k.s9 ^^^ w11
  let w22 := k.s10 ^^^ w12
  let w23 := k.s11 ^^^ w13
  let w30 := k.s12 ^^^ w20
  let w31 := k.s13 ^^^ w21
  let w32 := k.s14 ^^^ w22
  let w33 := k.s15 ^^^ w23
  ⟨w00, w01, w02, w03, w10, w11, w12, w13, w20, w21, w22, w23, w30, w31, w32, w33⟩

/-- Generate `n` further round keys starting from round index `r`. -/
def expandAux : Nat → Nat → Block → List Block
  | 0, _, _ => []
  | n + 1, r, k =>
    let k2 := nextRoundKey r k
    k2 :: expandAux n (r + 1) k2

/-- The eleven AES-128 round keys derived from a cipher key. -/
def expandKey (k : Block) : List Block := k :: expandAux 10 1 k

/-! ### The AES-128 block cipher -/

/-- One full AES round: SubBytes, ShiftRows, MixColumns, AddRoundKey. -/
def aesRound (k s : Block) : Block := xorBlock (mixColumnsB (shiftRowsB (subBytesB s))) k

/-- Inverse of `aesRound` (equivalent inverse round, operations reversed). -/
def aesInvRound (k s : Block) : Block :=
  invSubBytesB (invShiftRowsB (invMixColumnsB (xorBlock s k)))

/-- AES-128 encryption of one block with round keys `k0`, `mid` (rounds 1–9)
and `kl` (round 10, without MixColumns). -/
def encryptWith (k0 : Block) (mid : List Block) (kl : Block) (s : Block) : Block :=
  xorBlock (shiftRowsB (subBytesB (List.foldl (fun st k => aesRound k st) (xorBlock s k0) mid))) kl

/-- AES-128 decryption of one block with the same round keys. -/
def decryptWith (k0 : Block) (mid : List Block) (kl : Block) (c : Block) : Block :=
  xorBlock
    (List.foldl (fun st k => aesInvRound k st)
      (invSubBytesB (invShiftRowsB (xorBlock c kl))) mid.reverse) k0

/-! ### The fixed key and IV of `crypto.ts`

`const KEY = Buffer.from('gy1t#b@jl(b$wtme', 'utf8')` and
`const IV = Buffer.from('xC4dmVJAq14BfntX', 'utf8')` (both ASCII, 16 bytes). -/

/-- Code points of a Lean string (the embedding of a JS string). -/
def strCodes (s : String) : List Nat := s.data.map Char.toNat

/-- The fixed AES key bytes. -/
def KEY : List Nat := strCodes "gy1t#b@jl(b$wtme"

/-- The fixed AES initialization vector bytes. -/
def IV : List Nat := strCodes "xC4dmVJAq14BfntX"

/-- Build a block from the first sixteen entries of a byte list. -/
def blockOfList (l : List Nat) : Block :=
  ⟨l.getD 0 0, l.getD 1 0, l.getD 2 0, l.getD 3 0,
   l.getD 4 0, l.getD 5 0, l.getD 6 0, l.getD 7 0,
   l.getD 8 0, l.getD 9 0, l.getD 10 0, l.getD 11 0,
   l.getD 12 0, l.getD 13 0, l.getD 14 0, l.getD 15 0⟩

/-- The sixteen bytes of a block, in input order. -/
def blockToList (B : Block) : List Nat :=
  [B.s0, B.s1, B.s2, B.s3, B.s4, B.s5, B.s6, B.s7,
   B.s8, B.s9, B.s10, B.s11, B.s12, B.s13, B.s14, B.s15]

/-- The key as a block. -/
def KEYBLOCK : Block := blockOfList KEY

/-- The IV as a block. -/
def IVBLOCK : Block := blockOfList IV

/-- The eleven round keys of the fixed Gaana key. -/
def RK : List Block := expandKey KEYBLOCK

/-- Round key 0 of the fixed key. -/
def GK0 : Block := RK.getD 0 Block.zero

/-- Round keys 1–9 of the fixed key. -/
def GMID : List Block := (RK.drop 1).take 9

/-- Round key 10 of the fixed key. -/
def GK10 : Block := RK.getD 10 Block.zero

/-- AES-128 encryption of one block under the fixed key. -/
def aesEncBlock (s : Block) : Block := encryptWith GK0 GMID GK10 s

/-- AES-128 decryption of one block under the fixed key. -/
def aesDecBlock (c : Block) : Block := decryptWith GK0 GMID GK10 c

/-! ### CBC mode over lists of blocks and byte lists -/

/-- Split a byte list into 16-byte blocks (any incomplete tail is dropped;
callers establish divisibility by 16 first). -/
def toBlocks : List Nat → List Block
  | b0 :: b1 :: b2 :: b3 :: b4 :: b5 :: b6 :: b7 ::
    b8 :: b9 :: b10 :: b11 :: b12 :: b13 :: b14 :: b15 :: rest =>
    ⟨b0, b1, b2, b3, b4, b5, b6, b7, b8, b9, b10, b11, b12, b13, b14, b15⟩ :: toBlocks rest
  | _ => []

/-- Flatten a list of blocks back to bytes. -/
def fromBlocks (L : List Block) : List Nat := L.foldr (fun B acc => blockToList B ++ acc) []

/-- CBC encryption: each plaintext block is xored with the previous
ciphertext block (initially the IV) before the block cipher. -/
def cbcEncBlocks (prev : Block) : List Block → List Block
  | [] => []
  | p :: ps =>
    let c := aesEncBlock (xorBlock p prev)
    c :: cbcEncBlocks c ps

/-- CBC decryption: each ciphertext block is deciphered and xored with the
previous ciphertext block (initially the IV). -/
def cbcDecBlocks (prev : Block) : List Block → List Block
  | [] => []
  | c :: cs => xorBlock (aesDecBlock c) prev :: cbcDecBlocks c cs

/-- The decryption performed by `createDecipheriv('aes-128-cbc', KEY, IV)`
with `setAutoPadding(false)`: with a byte count that is a multiple of the
16-byte block size (including zero bytes) `update`/`final` return the raw
block-aligned plaintext; otherwise `final()` throws, which `decryptStreamPath`
catches — modelled as `none`. -/
def aesCbcDecryptBytes (bs : List Nat) : Option (List Nat) :=
  if bs.length % 16 = 0 then some (fromBlocks (cbcDecBlocks IVBLOCK (toBlocks bs))) else none

/-- AES-128-CBC encryption of a block-aligned byte list under the fixed key
and IV (used by the reference encoder of the round-trip law). -/
def aesCbcEncryptBytes (bs : List Nat) : List Nat :=
  fromBlocks (cbcEncBlocks IVBLOCK (toBlocks bs))

/-! ### Base64, as decoded by Node's `Buffer.from(str, 'base64')`

Node's base64 decoder is lenient: it accepts both the standard and the
url-safe alphabet, skips every other character (including `=` padding,
whitespace and junk), and decodes the resulting 6-bit groups, dropping a
trailing group of fewer than 2 characters and the spare low bits of a
2- or 3-character tail. -/

/-- The 6-bit value of one base64 alphabet character (`none` for characters
outside the two alphabets, which Node skips). -/
def b64CharVal (c : Char) : Option Nat :=
  if 65 ≤ c.toNat ∧ c.toNat ≤ 90 then some (c.toNat - 65)
  else if 97 ≤ c.toNat ∧ c.toNat ≤ 122 then some (c.toNat - 71)
  else if 48 ≤ c.toNat ∧ c.toNat ≤ 57 then some (c.toNat + 4)
  else if c = '+' ∨ c = '-' then some 62
  else if c = '/' ∨ c = '_' then some 63
  else none

/-- Reassemble bytes from a list of 6-bit values. -/
def b64Assemble : List Nat → List Nat
  | v0 :: v1 :: v2 :: v3 :: rest =>
    (v0 * 4 + v1 / 16) :: ((v1 % 16) * 16 + v2 / 4) :: ((v2 % 4) * 64 + v3) :: b64Assemble rest
  | [v0, v1] => [v0 * 4 + v1 / 16]
  | [v0, v1, v2] => [v0 * 4 + v1 / 16, (v1 % 16) * 16 + v2 / 4]
  | _ => []

/-- Node-style lenient base64 decoding of a character list. -/
def b64DecodeNode (s : List Char) : List Nat := b64Assemble (s.filterMap b64CharVal)

/-- The standard base64 alphabet, for encoding. -/
def b64Alphabet : List Char := "ABCDEFGHIJKLMNOPQRSTUVWXYZabcdefghijklmnopqrstuvwxyz0123456789+/".data

/-- The base64 character of a 6-bit value. -/
def b64EncChar (v : Nat) : Char := b64Alphabet.getD v '?'

/-- Base64 encoding without `=` padding (the source scheme always strips
padding; the decoder restores two `=` unconditionally). -/
def b64EncodeUnpadded : List Nat → List Char
  | b0 :: b1 :: b2 :: rest =>
    b64EncChar (b0 / 4) :: b64EncChar ((b0 % 4) * 16 + b1 / 16) ::
    b64EncChar ((b1 % 16) * 4 + b2 / 64) :: b64EncChar (b2 % 64) :: b64EncodeUnpadded rest
  | [b0] => [b64EncChar (b0 / 4), b64EncChar ((b0 % 4) * 16)]
  | [b0, b1] => [b64EncChar (b0 / 4), b64EncChar ((b0 % 4) * 16 + b1 / 16), b64EncChar ((b1 % 16) * 4)]
  | [] => []

/-! ### UTF-8 decoding with replacement (`decrypted.toString('utf8')`)

The WHATWG UTF-8 decode algorithm: malformed sequences produce U+FFFD and
the offending byte is reprocessed in the initial state. The decoded text is
kept as a list of code points; JS strings are UTF-16, but every code point
this pipeline keeps is ASCII, and supplementary code points are dropped by
the printable filter exactly as their surrogate halves would be. -/

/-- Decoder state after a lead byte: bytes still needed, accumulated value,
and the admissible range of the next continuation byte. -/
structure Utf8State where
  needed : Nat
  acc : Nat
  lo : Nat
  hi : Nat
deriving Repr

/-- Classify a byte in the initial decoder state: either emit a code point
(ASCII or U+FFFD for an invalid lead) or enter a multi-byte sequence. -/
def utf8Init (b : Nat) : List Nat ⊕ Utf8State :=
  if b ≤ 0x7F then .inl [b]
  else if 0xC2 ≤ b ∧ b ≤ 0xDF then .inr ⟨1, b - 0xC0, 0x80, 0xBF⟩
  else if b = 0xE0 then .inr ⟨2, 0, 0xA0, 0xBF⟩
  else if 0xE1 ≤ b ∧ b ≤ 0xEC then .inr ⟨2, b - 0xE0, 0x80, 0xBF⟩
  else if b = 0xED then .inr ⟨2, 13, 0x80, 0x9F⟩
  else if 0xEE ≤ b ∧ b ≤ 0xEF then .inr ⟨2, b - 0xE0, 0x80, 0xBF⟩
  else if b = 0xF0 then .inr ⟨3, 0, 0x90, 0xBF⟩
  else if 0xF1 ≤ b ∧ b ≤ 0xF3 then .inr ⟨3, b - 0xF0, 0x80, 0xBF⟩
  else if b = 0xF4 then .inr ⟨3, 4, 0x80, 0x8F⟩
  else .inl [0xFFFD]

/-- Run the UTF-8 decoder over the byte list from a mid-sequence state. -/
def utf8Go : Option Utf8State → List Nat → List Nat
  | none, [] => []
  | some _, [] => [0xFFFD]
  | none, b :: bs =>
    match utf8Init b with
    | .inl out => out ++ utf8Go none bs
    | .inr st => utf8Go (some st) bs
  | some st, b :: bs =>
    if st.lo ≤ b ∧ b ≤ st.hi then
      let acc2 := st.acc * 64 + (b - 0x80)
      match st.needed with
      | 1 => acc2 :: utf8Go none bs
      | n + 1 => utf8Go (some ⟨n, acc2, 0x80, 0xBF⟩) bs
      | 0 => utf8Go none bs
    else
      0xFFFD ::
        (match utf8Init b with
         | .inl out => out ++ utf8Go none bs
         | .inr st2 => utf8Go (some st2) bs)

/-- Decode a byte list as UTF-8 with replacement characters. -/
def utf8Decode (bs : List Nat) : List Nat := utf8Go none bs

/-! ### Sanitization (`crypto.ts` lines 47–55)

`decrypted.toString('utf8').replace(/\0/g, '').trim()` followed by the
printable-ASCII filter `32 <= code && code <= 126`. -/

/-- The code points removed by JS `String.prototype.trim`. -/
def jsWsList : List Nat :=
  [9, 10, 11, 12, 13, 32, 160, 5760, 8192, 8193, 8194, 8195, 8196, 8197, 8198,
   8199, 8200, 8201, 8202, 8232, 8233, 8239, 8287, 12288, 65279]

/-- Whether a code point is JS trim whitespace. -/
def jsWsB (c : Nat) : Bool := decide (c ∈ jsWsList)

/-- JS `trim`: drop whitespace from both ends. -/
def jsTrim (l : List Nat) : List Nat :=
  (((l.dropWhile jsWsB).reverse).dropWhile jsWsB).reverse

/-- Whether a code point is printable ASCII (code 32–126). -/
def printableB (c : Nat) : Bool := decide (32 ≤ c) && decide (c ≤ 126)

/-- The sanitization of the decoded text: remove null characters, trim
surrounding whitespace, keep only printable ASCII. -/
def sanitize (t : List Nat) : List Nat :=
  (jsTrim (t.filter (fun c => c != 0))).filter printableB

/-! ### Marker extraction and URL assembly (`crypto.ts` lines 57–65) -/

/-- Index of the first occurrence of `pat` in `l` (JS `indexOf`, with `none`
for `-1`). -/
def firstIdxOf (pat : List Nat) : List Nat → Option Nat
  | [] => if pat.isEmpty then some 0 else none
  | a :: t =>
    if pat.isPrefixOf (a :: t) then some 0
    else (firstIdxOf pat t).map (· + 1)

/-- JS `includes`: whether `pat` occurs in `l`. -/
def listIncludes (pat l : List Nat) : Bool := (firstIdxOf pat l).isSome

/-- The code points of `"/hls/"`, the substring `includes` tests for. -/
def slashHlsMarker : List Nat := strCodes "/hls/"

/-- The code points of `"hls/"`, the substring `indexOf` slices at. -/
def hlsMarker : List Nat := strCodes "hls/"

/-- `const HLS_BASE_URL = 'https://vodhlsgaana-ebw.akamaized.net/'`. -/
def HLS_BASE_URL : String := "https://vodhlsgaana-ebw.akamaized.net/"

/-- Render a list of code points as a string (all code points produced by the
success path are printable ASCII, hence valid). -/
def codesToString (l : List Nat) : String := ⟨l.map Char.ofNat⟩

/-- Lines 57–65 of `crypto.ts`: if the sanitized text contains `'/hls/'`,
slice from the first occurrence of `'hls/'` (JS `substring` clamps the
unreachable `-1` to 0, modelled by `getD 0`) and prepend the base host;
otherwise no URL. -/
def extractHlsPath (rawText : List Nat) : Option String :=
  if listIncludes slashHlsMarker rawText then
    some (HLS_BASE_URL ++ codesToString (rawText.drop ((firstIdxOf hlsMarker rawText).getD 0)))
  else none

/-! ### The payload decoder `decryptStreamPath`

The source signals failure by returning `''` after a `console.warn`; the
distinct failure branches are modelled as a sum type following the spec's
taxonomy. `malformedOffset` is the `isNaN(offset)` early return,
`invalidCiphertextLength` is the only exception the `try/catch` can catch
(`decipher.final()` throws exactly when the ciphertext byte count is not a
multiple of 16), and `markerNotFound` is the `'No /hls/ path found'` return.
The spec's `truncatedPayload`, `invalidBase64` and `decryptionFailure` kinds
have no branch in the code that produces them. -/

inductive DecodeFailure where
  | malformedOffset
  | truncatedPayload
  | invalidBase64
  | invalidCiphertextLength
  | decryptionFailure
  | markerNotFound
deriving DecidableEq, Repr

/-- Lines 27–32: `parseInt(encryptedData[0], 10)` with the `isNaN` check —
the value of the first character when it is an ASCII decimal digit. -/
def parseOffset : List Char → Option Nat
  | [] => none
  | c :: _ => if 48 ≤ c.toNat ∧ c.toNat ≤ 57 then some (c.toNat - 48) else none

/-- Characters `'=='` appended to the payload before decoding (line 38). -/
def padChars : List Char := ['=', '=']

/-- Lines 34–38: slice the base64 payload at `offset + 16` (JS `substring`
yields `''` past the end, as `List.drop` does), append `'=='`, decode. -/
def payloadBytes (data : List Char) (off : Nat) : List Nat :=
  b64DecodeNode (data.drop (off + 16) ++ padChars)

/-- The payload decoder `decryptStreamPath` of `crypto.ts` (lines 25–70):
offset parsing, payload slicing, lenient base64 decoding, AES-128-CBC
decryption under the fixed key/IV, sanitization, and `hls/` path extraction.
Failures are the typed counterpart of the warn-and-return-`''` branches. -/
def decryptStreamPath (s : String) : Except DecodeFailure String :=
  match parseOffset s.data with
  | none => .error .malformedOffset
  | some off =>
    match aesCbcDecryptBytes (payloadBytes s.data off) with
    | none => .error .invalidCiphertextLength
    | some plain =>
      match extractHlsPath (sanitize (utf8Decode plain)) with
      | some url => .ok url
      | none => .error .markerNotFound

/-! ### Reference encoder (modelled from the spec)

Modelled from the spec: the repository has no encoder; the round-trip law of
§8 is stated against "a reference encoder using the same fixed key/IV and
framing scheme": a single offset digit `d`, an uninterpreted framing region
filling indices `1 … d+15`, and the unpadded base64 of the AES-128-CBC
ciphertext of the plaintext under the fixed key and IV. -/

/-- The ASCII digit character of `d ≤ 9`. -/
def digitChar : Nat → Char
  | 0 => '0' | 1 => '1' | 2 => '2' | 3 => '3' | 4 => '4'
  | 5 => '5' | 6 => '6' | 7 => '7' | 8 => '8' | _ => '9'

/-- Modelled from the spec: the reference encoder. `junk` is the framing
region (so `junk.length = d + 15` makes the ciphertext start at `d + 16`). -/
def referenceEncode (d : Nat) (junk : List Char) (p : String) : String :=
  ⟨digitChar d :: (junk ++ b64EncodeUnpadded (aesCbcEncryptBytes (strCodes p)))⟩

/-! ### The stream resolver (`fetchStreamUrl`, `getMediaUrls`)

The network transport is modelled as an input: a `TransportResult` stands for
the outcome of the `fetch` + `res.json()` pair, with `failure` covering both
rejected promises and JSON errors (the `catch` branch). -/

/-- The `MediaUrl` output record. -/
structure MediaUrl where
  quality : String
  bitRate : String
  url : String
  format : String
deriving DecidableEq, Repr

/-- The optional `data` member of the response envelope. -/
structure StreamData where
  stream_path : Option String
  bit_rate : Option String
  track_format : Option String
deriving DecidableEq, Repr

/-- The JSON response envelope `{ api_status?, data? }`. -/
structure ApiEnvelope where
  api_status : Option String
  data : Option StreamData
deriving DecidableEq, Repr

/-- Outcome of the transport call for one track/quality pair. -/
inductive TransportResult where
  | failure
  | response (env : ApiEnvelope)

/-- JS `a || b` on an optional string: the default replaces both a missing
field and an empty string. -/
def jsOr (o : Option String) (dflt : String) : String :=
  match o with
  | some s => if s = "" then dflt else s
  | none => dflt

/-- `fetchStreamUrl` (lines 88–139) with the transport response as input:
on a success envelope with a truthy `stream_path`, decrypt it; a truthy
decrypted URL yields the `MediaUrl` record, every other path yields `null`. -/
def fetchStreamUrl (resp : TransportResult) (quality : String) : Option MediaUrl :=
  match resp with
  | .failure => none
  | .response env =>
    match env.data with
    | some d =>
      match d.stream_path with
      | some sp =>
        if env.api_status = some "success" ∧ sp ≠ "" then
          match decryptStreamPath sp with
          | .ok u => some ⟨quality, jsOr d.bit_rate "", u, jsOr d.track_format "mp4"⟩
          | .error _ => none
        else none
      | none => none
    | none => none

/-- `getMediaUrls` (lines 146–157): only the `'high'` tier is attempted (the
declared `qualities` array is unused in the source); a success contributes
the single element of the result. The transport is an input mapping
track id and quality to a response. -/
def getMediaUrls (trackId : String) (transport : String → String → TransportResult) :
    List MediaUrl :=
  match fetchStreamUrl (transport trackId "high") "high" with
  | some m => [m]
  | none => []

end GaanaAPI

deriving instance DecidableEq for Except

namespace GaanaAPI

/-! ## Proof layer

### Validation of the AES embedding against published test vectors

FIPS-197 Appendix A/B (key schedule and cipher) and NIST SP 800-38A F.2.1
(the first CBC-AES128 block, as the cipher applied to plaintext XOR IV). -/

theorem aes_fips197_key_schedule :
    (expandKey ⟨0x2b, 0x7e, 0x15, 0x16, 0x28, 0xae, 0xd2, 0xa6,
        0xab, 0xf7, 0x15, 0x88, 0x09, 0xcf, 0x4f, 0x3c⟩).getD 10 Block.zero =
      ⟨0xd0, 0x14, 0xf9, 0xa8, 0xc9, 0xee, 0x25, 0x89,
        0xe1, 0x3f, 0x0c, 0xc8, 0xb6, 0x63, 0x0c, 0xa6⟩ := rfl

theorem aes_fips197_cipher :
    (let ks := expandKey ⟨0x2b, 0x7e, 0x15, 0x16, 0x28, 0xae, 0xd2, 0xa6,
        0xab, 0xf7, 0x15, 0x88, 0x09, 0xcf, 0x4f, 0x3c⟩
     encryptWith (ks.getD 0 Block.zero) ((ks.drop 1).take 9) (ks.getD 10 Block.zero)
       ⟨0x32, 0x43, 0xf6, 0xa8, 0x88, 0x5a, 0x30, 0x8d,
        0x31, 0x31, 0x98, 0xa2, 0xe0, 0x37, 0x07, 0x34⟩) =
      ⟨0x39, 0x25, 0x84, 0x1d, 0x02, 0xdc, 0x09, 0xfb,
        0xdc, 0x11, 0x85, 0x97, 0x19, 0x6a, 0x0b, 0x32⟩ := rfl

theorem aes_nist_cbc_first_block :
    (let ks := expandKey ⟨0x2b, 0x7e, 0x15, 0x16, 0x28, 0xae, 0xd2, 0xa6,
        0xab, 0xf7, 0x15, 0x88, 0x09, 0xcf, 0x4f, 0x3c⟩
     encryptWith (ks.getD 0 Block.zero) ((ks.drop 1).take 9) (ks.getD 10 Block.zero)
       (xorBlock
         ⟨0x6b, 0xc1, 0xbe, 0xe2, 0x2e, 0x40, 0x9f, 0x96,
          0xe9, 0x3d, 0x7e, 0x11, 0x73, 0x93, 0x17, 0x2a⟩
         ⟨0, 1, 2, 3, 4, 5, 6, 7, 8, 9, 10, 11, 12, 13, 14, 15⟩)) =
      ⟨0x76, 0x49, 0xab, 0xac, 0x81, 0x19, 0xb2, 0x46,
        0xce, 0xe9, 0x8e, 0x9b, 0x12, 0xe9, 0x19, 0x7d⟩ := rfl

/-! ### Byte-level XOR facts -/

theorem xor_lt256 {x y : Nat} (hx : x < 256) (hy : y < 256) : x ^^^ y < 256 :=
  @Nat.xor_lt_two_pow x y 8 hx hy

theorem xor_mod256 (a b : Nat) : (a ^^^ b) % 256 = a % 256 ^^^ b % 256 := by
  show (a ^^^ b) % 2 ^ 8 = a % 2 ^ 8 ^^^ b % 2 ^ 8
  apply Nat.eq_of_testBit_eq
  intro i
  simp only [Nat.testBit_mod_two_pow, Nat.testBit_xor, Bool.and_xor_distrib_left]

theorem two_mul_xor (u v : Nat) : 2 * (u ^^^ v) = 2 * u ^^^ 2 * v := by
  have h : ∀ x : Nat, 2 * x = x <<< 1 := fun x => by
    rw [Nat.shiftLeft_eq, Nat.pow_one, Nat.mul_comm]
  rw [h, h, h]
  apply Nat.eq_of_testBit_eq
  intro i
  simp [Nat.testBit_shiftLeft, Nat.testBit_xor, Bool.and_xor_distrib_left]

/-! ### Linearity and bounds of the GF(2^8) multipliers -/

theorem xtime_mask (x : Nat) : xtime (x % 256) = xtime x := by
  simp only [xtime]
  rw [Nat.mod_mod_of_dvd x dvd_rfl]

theorem xtime_repr : ∀ u, u < 256 →
    xtime u = 2 * u % 256 ^^^ (if u.testBit 7 then 27 else 0) := by decide

theorem xtime_lt (x : Nat) : xtime x < 256 := by
  simp only [xtime]
  by_cases h : x % 256 < 128
  · simp only [if_pos h]; omega
  · simp only [if_neg h]
    exact xor_lt256 (Nat.mod_lt _ (by omega)) (by omega)

theorem cond27_xor : ∀ t1 t2 : Bool,
    (if (t1 ^^ t2) then 27 else 0 : Nat) =
      (if t1 then 27 else 0) ^^^ (if t2 then 27 else 0) := by decide

theorem xtime_xor (a b : Nat) : xtime (a ^^^ b) = xtime a ^^^ xtime b := by
  have key : ∀ u, u < 256 → ∀ v, v < 256 → xtime (u ^^^ v) = xtime u ^^^ xtime v := by
    intro u hu v hv
    rw [xtime_repr u hu, xtime_repr v hv, xtime_repr (u ^^^ v) (xor_lt256 hu hv)]
    rw [Nat.testBit_xor, two_mul_xor, xor_mod256, cond27_xor]
    ac_rfl
  calc xtime (a ^^^ b) = xtime ((a ^^^ b) % 256) := (xtime_mask _).symm
    _ = xtime (a % 256 ^^^ b % 256) := by rw [xor_mod256]
    _ = xtime (a % 256) ^^^ xtime (b % 256) :=
        key _ (Nat.mod_lt _ (by omega)) _ (Nat.mod_lt _ (by omega))
    _ = xtime a ^^^ xtime b := by rw [xtime_mask, xtime_mask]

theorem bmask_mask (x : Nat) : bmask (x % 256) = bmask x := by
  simp only [bmask]; omega

theorem bmask_lt (x : Nat) : bmask x < 256 := Nat.mod_lt _ (by omega)

theorem bmask_xor (a b : Nat) : bmask (a ^^^ b) = bmask a ^^^ bmask b := xor_mod256 a b

theorem gm3_xor (a b : Nat) : gm3 (a ^^^ b) = gm3 a ^^^ gm3 b := by
  simp only [gm3, xtime_xor, bmask_xor]; ac_rfl

theorem gm9_xor (a b : Nat) : gm9 (a ^^^ b) = gm9 a ^^^ gm9 b := by
  simp only [gm9, xtime_xor, bmask_xor]; ac_rfl

theorem gm11_xor (a b : Nat) : gm11 (a ^^^ b) = gm11 a ^^^ gm11 b := by
  simp only [gm11, xtime_xor, bmask_xor]; ac_rfl

theorem gm13_xor (a b : Nat) : gm13 (a ^^^ b) = gm13 a ^^^ gm13 b := by
  simp only [gm13, xtime_xor, bmask_xor]; ac_rfl

theorem gm14_xor (a b : Nat) : gm14 (a ^^^ b) = gm14 a ^^^ gm14 b := by
  simp only [gm14, xtime_xor, bmask_xor]; ac_rfl

theorem gm3_mask (x : Nat) : gm3 (x % 256) = gm3 x := by
  simp only [gm3, xtime_mask, bmask_mask]

theorem gm9_mask (x : Nat) : gm9 (x % 256) = gm9 x := by
  simp only [gm9, xtime_mask, bmask_mask]

theorem gm11_mask (x : Nat) : gm11 (x % 256) = gm11 x := by
  simp only [gm11, xtime_mask, bmask_mask]

theorem gm13_mask (x : Nat) : gm13 (x % 256) = gm13 x := by
  simp only [gm13, xtime_mask, bmask_mask]

theorem gm14_mask (x : Nat) : gm14 (x % 256) = gm14 x := by
  simp only [gm14, xtime_mask]

theorem gm3_lt (x : Nat) : gm3 x < 256 := xor_lt256 (xtime_lt _) (bmask_lt _)

theorem gm9_lt (x : Nat) : gm9 x < 256 := xor_lt256 (xtime_lt _) (bmask_lt _)

theorem gm11_lt (x : Nat) : gm11 x < 256 :=
  xor_lt256 (xor_lt256 (xtime_lt _) (xtime_lt _)) (bmask_lt _)

theorem gm13_lt (x : Nat) : gm13 x < 256 :=
  xor_lt256 (xor_lt256 (xtime_lt _) (xtime_lt _)) (bmask_lt _)

theorem gm14_lt (x : Nat) : gm14 x < 256 :=
  xor_lt256 (xor_lt256 (xtime_lt _) (xtime_lt _)) (xtime_lt _)

/-! ### The InvMixColumns matrix inverts the MixColumns matrix

Byte-wise coefficient identities of `M⁻¹·M = I` over GF(2^8), checked on
all 256 bytes and lifted to all of `Nat` through the masking lemmas. -/

theorem coeffId_lt : ∀ y, y < 256 →
    gm14 (xtime y) ^^^ gm11 y ^^^ gm13 y ^^^ gm9 (gm3 y) = y := by decide

theorem coeffZ1_lt : ∀ y, y < 256 →
    gm14 (gm3 y) ^^^ gm11 (xtime y) ^^^ gm13 y ^^^ gm9 y = 0 := by decide

theorem coeffZ2_lt : ∀ y, y < 256 →
    gm14 y ^^^ gm11 (gm3 y) ^^^ gm13 (xtime y) ^^^ gm9 y = 0 := by decide

theorem coeffZ3_lt : ∀ y, y < 256 →
    gm14 y ^^^ gm11 y ^^^ gm13 (gm3 y) ^^^ gm9 (xtime y) = 0 := by decide

theorem coeffId (x : Nat) :
    gm14 (xtime x) ^^^ gm11 x ^^^ gm13 x ^^^ gm9 (gm3 x) = x % 256 := by
  have h := coeffId_lt (x % 256) (Nat.mod_lt _ (by omega))
  rwa [xtime_mask, gm11_mask, gm13_mask, gm3_mask] at h

theorem coeffZ1 (x : Nat) :
    gm14 (gm3 x) ^^^ gm11 (xtime x) ^^^ gm13 x ^^^ gm9 x = 0 := by
  have h := coeffZ1_lt (x % 256) (Nat.mod_lt _ (by omega))
  rwa [xtime_mask, gm3_mask, gm13_mask, gm9_mask] at h

theorem coeffZ2 (x : Nat) :
    gm14 x ^^^ gm11 (gm3 x) ^^^ gm13 (xtime x) ^^^ gm9 x = 0 := by
  have h := coeffZ2_lt (x % 256) (Nat.mod_lt _ (by omega))
  rwa [xtime_mask, gm3_mask, gm14_mask, gm9_mask] at h

theorem coeffZ3 (x : Nat) :
    gm14 x ^^^ gm11 x ^^^ gm13 (gm3 x) ^^^ gm9 (xtime x) = 0 := by
  have h := coeffZ3_lt (x % 256) (Nat.mod_lt _ (by omega))
  rwa [xtime_mask, gm3_mask, gm14_mask, gm11_mask] at h

theorem imcMc0 (a b c d : Nat) (ha : a < 256) :
    imc0 (mc0 a b c d) (mc1 a b c d) (mc2 a b c d) (mc3 a b c d) = a := by
  simp only [imc0, mc0, mc1, mc2, mc3, gm14_xor, gm11_xor, gm13_xor, gm9_xor]
  trans ((gm14 (xtime a) ^^^ gm11 a ^^^ gm13 a ^^^ gm9 (gm3 a)) ^^^
      ((gm14 (gm3 b) ^^^ gm11 (xtime b) ^^^ gm13 b ^^^ gm9 b) ^^^
        ((gm14 c ^^^ gm11 (gm3 c) ^^^ gm13 (xtime c) ^^^ gm9 c) ^^^
          (gm14 d ^^^ gm11 d ^^^ gm13 (gm3 d) ^^^ gm9 (xtime d)))))
  · ac_rfl
  · rw [coeffId, coeffZ1, coeffZ2, coeffZ3]
    simp [Nat.mod_eq_of_lt ha]

theorem imcMc1 (a b c d : Nat) (hb : b < 256) :
    imc1 (mc0 a b c d) (mc1 a b c d) (mc2 a b c d) (mc3 a b c d) = b := by
  simp only [imc1, mc0, mc1, mc2, mc3, gm14_xor, gm11_xor, gm13_xor, gm9_xor]
  trans ((gm14 a ^^^ gm11 a ^^^ gm13 (gm3 a) ^^^ gm9 (xtime a)) ^^^
      ((gm14 (xtime b) ^^^ gm11 b ^^^ gm13 b ^^^ gm9 (gm3 b)) ^^^
        ((gm14 (gm3 c) ^^^ gm11 (xtime c) ^^^ gm13 c ^^^ gm9 c) ^^^
          (gm14 d ^^^ gm11 (gm3 d) ^^^ gm13 (xtime d) ^^^ gm9 d))))
  · ac_rfl
  · rw [coeffId, coeffZ1, coeffZ2, coeffZ3]
    simp [Nat.mod_eq_of_lt hb]

theorem imcMc2 (a b c d : Nat) (hc : c < 256) :
    imc2 (mc0 a b c d) (mc1 a b c d) (mc2 a b c d) (mc3 a b c d) = c := by
  simp only [imc2, mc0, mc1, mc2, mc3, gm14_xor, gm11_xor, gm13_xor, gm9_xor]
  trans ((gm14 a ^^^ gm11 (gm3 a) ^^^ gm13 (xtime a) ^^^ gm9 a) ^^^
      ((gm14 b ^^^ gm11 b ^^^ gm13 (gm3 b) ^^^ gm9 (xtime b)) ^^^
        ((gm14 (xtime c) ^^^ gm11 c ^^^ gm13 c ^^^ gm9 (gm3 c)) ^^^
          (gm14 (gm3 d) ^^^ gm11 (xtime d) ^^^ gm13 d ^^^ gm9 d))))
  · ac_rfl
  · rw [coeffId, coeffZ1, coeffZ2, coeffZ3]
    simp [Nat.mod_eq_of_lt hc]

theorem imcMc3 (a b c d : Nat) (hd : d < 256) :
    imc3 (mc0 a b c d) (mc1 a b c d) (mc2 a b c d) (mc3 a b c d) = d := by
  simp only [imc3, mc0, mc1, mc2, mc3, gm14_xor, gm11_xor, gm13_xor, gm9_xor]
  trans ((gm14 (gm3 a) ^^^ gm11 (xtime a) ^^^ gm13 a ^^^ gm9 a) ^^^
      ((gm14 b ^^^ gm11 (gm3 b) ^^^ gm13 (xtime b) ^^^ gm9 b) ^^^
        ((gm14 c ^^^ gm11 c ^^^ gm13 (gm3 c) ^^^ gm9 (xtime c)) ^^^
          (gm14 (xtime d) ^^^ gm11 d ^^^ gm13 d ^^^ gm9 (gm3 d)))))
  · ac_rfl
  · rw [coeffId, coeffZ1, coeffZ2, coeffZ3]
    simp [Nat.mod_eq_of_lt hd]

/-! ### S-box facts

The tables agree with the defining GF(2^8) formulas on every byte, the
inverse table inverts the table, and the table is byte-bounded. -/

theorem sbox_eq_sboxGF : ∀ y, y < 256 → sbox y = sboxGF y := by decide

theorem sboxInv_eq_sboxInvGF : ∀ y, y < 256 → sboxInv y = sboxInvGF y := by decide

theorem sbox_mask (x : Nat) : sbox (x % 256) = sbox x := by
  simp only [sbox]
  rw [Nat.mod_mod_of_dvd x dvd_rfl]

theorem sbox_lt_all : ∀ y, y < 256 → sbox y < 256 := by decide

theorem sbox_lt (x : Nat) : sbox x < 256 := by
  rw [← sbox_mask]
  exact sbox_lt_all _ (Nat.mod_lt _ (by omega))

theorem sboxInv_sbox_lt : ∀ y, y < 256 → sboxInv (sbox y) = y := by decide

/-! ### Block-level facts -/

theorem blockLt_zero : BlockLt Block.zero := by decide

theorem xorBlock_cancel (A K : Block) : xorBlock (xorBlock A K) K = A := by
  cases A; cases K
  simp [xorBlock, Nat.xor_assoc]

theorem blockLt_xorBlock {A B : Block} (hA : BlockLt A) (hB : BlockLt B) :
    BlockLt (xorBlock A B) := by
  obtain ⟨a0, a1, a2, a3, a4, a5, a6, a7, a8, a9, a10, a11, a12, a13, a14, a15⟩ := hA
  obtain ⟨b0, b1, b2, b3, b4, b5, b6, b7, b8, b9, b10, b11, b12, b13, b14, b15⟩ := hB
  exact ⟨xor_lt256 a0 b0, xor_lt256 a1 b1, xor_lt256 a2 b2, xor_lt256 a3 b3,
    xor_lt256 a4 b4, xor_lt256 a5 b5, xor_lt256 a6 b6, xor_lt256 a7 b7,
    xor_lt256 a8 b8, xor_lt256 a9 b9, xor_lt256 a10 b10, xor_lt256 a11 b11,
    xor_lt256 a12 b12, xor_lt256 a13 b13, xor_lt256 a14 b14, xor_lt256 a15 b15⟩

theorem blockLt_subBytesB (B : Block) : BlockLt (subBytesB B) :=
  ⟨sbox_lt _, sbox_lt _, sbox_lt _, sbox_lt _, sbox_lt _, sbox_lt _, sbox_lt _, sbox_lt _,
   sbox_lt _, sbox_lt _, sbox_lt _, sbox_lt _, sbox_lt _, sbox_lt _, sbox_lt _, sbox_lt _⟩

theorem blockLt_shiftRowsB {B : Block} (h : BlockLt B) : BlockLt (shiftRowsB B) := by
  obtain ⟨h0, h1, h2, h3, h4, h5, h6, h7, h8, h9, h10, h11, h12, h13, h14, h15⟩ := h
  exact ⟨h0, h5, h10, h15, h4, h9, h14, h3, h8, h13, h2, h7, h12, h1, h6, h11⟩

theorem mc0_lt {a b c d : Nat} (hc : c < 256) (hd : d < 256) : mc0 a b c d < 256 :=
  xor_lt256 (xor_lt256 (xor_lt256 (xtime_lt _) (gm3_lt _)) hc) hd

theorem mc1_lt {a b c d : Nat} (ha : a < 256) (hd : d < 256) : mc1 a b c d < 256 :=
  xor_lt256 (xor_lt256 (xor_lt256 ha (xtime_lt _)) (gm3_lt _)) hd

theorem mc2_lt {a b c d : Nat} (ha : a < 256) (hb : b < 256) : mc2 a b c d < 256 :=
  xor_lt256 (xor_lt256 (xor_lt256 ha hb) (xtime_lt _)) (gm3_lt _)

theorem mc3_lt {a b c d : Nat} (hb : b < 256) (hc : c < 256) : mc3 a b c d < 256 :=
  xor_lt256 (xor_lt256 (xor_lt256 (gm3_lt _) hb) hc) (xtime_lt _)

theorem blockLt_mixColumnsB {B : Block} (h : BlockLt B) : BlockLt (mixColumnsB B) := by
  obtain ⟨h0, h1, h2, h3, h4, h5, h6, h7, h8, h9, h10, h11, h12, h13, h14, h15⟩ := h
  exact ⟨mc0_lt h2 h3, mc1_lt h0 h3, mc2_lt h0 h1, mc3_lt h1 h2,
    mc0_lt h6 h7, mc1_lt h4 h7, mc2_lt h4 h5, mc3_lt h5 h6,
    mc0_lt h10 h11, mc1_lt h8 h11, mc2_lt h8 h9, mc3_lt h9 h10,
    mc0_lt h14 h15, mc1_lt h12 h15, mc2_lt h12 h13, mc3_lt h13 h14⟩

theorem invShiftRowsB_shiftRowsB (B : Block) : invShiftRowsB (shiftRowsB B) = B := rfl

theorem invSubBytesB_subBytesB {B : Block} (h : BlockLt B) :
    invSubBytesB (subBytesB B) = B := by
  obtain ⟨s0, s1, s2, s3, s4, s5, s6, s7, s8, s9, s10, s11, s12, s13, s14, s15⟩ := B
  obtain ⟨h0, h1, h2, h3, h4, h5, h6, h7, h8, h9, h10, h11, h12, h13, h14, h15⟩ := h
  simp only [subBytesB, invSubBytesB, Block.mk.injEq]
  exact ⟨sboxInv_sbox_lt _ h0, sboxInv_sbox_lt _ h1, sboxInv_sbox_lt _ h2,
    sboxInv_sbox_lt _ h3, sboxInv_sbox_lt _ h4, sboxInv_sbox_lt _ h5,
    sboxInv_sbox_lt _ h6, sboxInv_sbox_lt _ h7, sboxInv_sbox_lt _ h8,
    sboxInv_sbox_lt _ h9, sboxInv_sbox_lt _ h10, sboxInv_sbox_lt _ h11,
    sboxInv_sbox_lt _ h12, sboxInv_sbox_lt _ h13, sboxInv_sbox_lt _ h14,
    sboxInv_sbox_lt _ h15⟩

theorem invMixColumnsB_mixColumnsB {B : Block} (h : BlockLt B) :
    invMixColumnsB (mixColumnsB B) = B := by
  obtain ⟨s0, s1, s2, s3, s4, s5, s6, s7, s8, s9, s10, s11, s12, s13, s14, s15⟩ := B
  obtain ⟨h0, h1, h2, h3, h4, h5, h6, h7, h8, h9, h10, h11, h12, h13, h14, h15⟩ := h
  simp only [mixColumnsB, invMixColumnsB, Block.mk.injEq]
  exact ⟨imcMc0 _ _ _ _ h0, imcMc1 _ _ _ _ h1, imcMc2 _ _ _ _ h2, imcMc3 _ _ _ _ h3,
    imcMc0 _ _ _ _ h4, imcMc1 _ _ _ _ h5, imcMc2 _ _ _ _ h6, imcMc3 _ _ _ _ h7,
    imcMc0 _ _ _ _ h8, imcMc1 _ _ _ _ h9, imcMc2 _ _ _ _ h10, imcMc3 _ _ _ _ h11,
    imcMc0 _ _ _ _ h12, imcMc1 _ _ _ _ h13, imcMc2 _ _ _ _ h14, imcMc3 _ _ _ _ h15⟩

/-! ### Inversion of the AES rounds -/

theorem blockLt_aesRound {k s : Block} (hk : BlockLt k) (_hs : BlockLt s) :
    BlockLt (aesRound k s) :=
  blockLt_xorBlock (blockLt_mixColumnsB (blockLt_shiftRowsB (blockLt_subBytesB s))) hk

theorem aesInvRound_aesRound {k s : Block} (_hk : BlockLt k) (hs : BlockLt s) :
    aesInvRound k (aesRound k s) = s := by
  unfold aesRound aesInvRound
  rw [xorBlock_cancel, invMixColumnsB_mixColumnsB (blockLt_shiftRowsB (blockLt_subBytesB s)),
    invShiftRowsB_shiftRowsB, invSubBytesB_subBytesB hs]

theorem blockLt_foldl_rounds {ks : List Block} {x : Block}
    (hks : ∀ k ∈ ks, BlockLt k) (hx : BlockLt x) :
    BlockLt (List.foldl (fun st k => aesRound k st) x ks) := by
  induction ks generalizing x with
  | nil => exact hx
  | cons k t ih =>
    simp only [List.foldl_cons]
    exact ih (fun k2 hk2 => hks k2 (List.mem_cons_of_mem _ hk2))
      (blockLt_aesRound (hks k (List.mem_cons_self k t)) hx)

theorem foldl_invRounds_foldl_rounds (ks : List Block) (x : Block)
    (hx : BlockLt x) (hks : ∀ k ∈ ks, BlockLt k) :
    List.foldl (fun st k => aesInvRound k st)
      (List.foldl (fun st k => aesRound k st) x ks) ks.reverse = x := by
  induction ks generalizing x with
  | nil => rfl
  | cons k t ih =>
    simp only [List.foldl_cons, List.reverse_cons]
    rw [List.foldl_append]
    rw [ih (aesRound k x)
      (blockLt_aesRound (hks k (List.mem_cons_self k t)) hx)
      (fun k2 hk2 => hks k2 (List.mem_cons_of_mem _ hk2))]
    simp only [List.foldl_cons, List.foldl_nil]
    exact aesInvRound_aesRound (hks k (List.mem_cons_self k t)) hx

/-- AES-128 decryption inverts AES-128 encryption for any round keys and any
state made of bytes. -/
theorem decryptWith_encryptWith (k0 : Block) (mid : List Block) (kl : Block) (s : Block)
    (h0 : BlockLt k0) (hm : ∀ k ∈ mid, BlockLt k) (hs : BlockLt s) :
    decryptWith k0 mid kl (encryptWith k0 mid kl s) = s := by
  unfold encryptWith decryptWith
  rw [xorBlock_cancel, invShiftRowsB_shiftRowsB,
    invSubBytesB_subBytesB (blockLt_foldl_rounds hm (blockLt_xorBlock hs h0)),
    foldl_invRounds_foldl_rounds mid _ (blockLt_xorBlock hs h0) hm,
    xorBlock_cancel]

theorem blockLt_GK0 : BlockLt GK0 := by decide

theorem blockLt_GMID : ∀ k ∈ GMID, BlockLt k := by decide

/-- The fixed-key block decryption inverts the fixed-key block encryption. -/
theorem aesDecBlock_aesEncBlock {s : Block} (hs : BlockLt s) :
    aesDecBlock (aesEncBlock s) = s :=
  decryptWith_encryptWith GK0 GMID GK10 s blockLt_GK0 blockLt_GMID hs

theorem blockLt_encryptWith {k0 : Block} {mid : List Block} {kl : Block} {s : Block}
    (_h0 : BlockLt k0) (_hm : ∀ k ∈ mid, BlockLt k) (hl : BlockLt kl) (_hs : BlockLt s) :
    BlockLt (encryptWith k0 mid kl s) :=
  blockLt_xorBlock
    (blockLt_shiftRowsB (blockLt_subBytesB _)) hl

theorem blockLt_GK10 : BlockLt GK10 := by decide

theorem blockLt_aesEncBlock {s : Block} (hs : BlockLt s) : BlockLt (aesEncBlock s) :=
  blockLt_encryptWith blockLt_GK0 blockLt_GMID blockLt_GK10 hs

/-! ### Bytes/blocks conversion -/

theorem fromBlocks_nil : fromBlocks [] = [] := rfl

theorem fromBlocks_cons (B : Block) (T : List Block) :
    fromBlocks (B :: T) = blockToList B ++ fromBlocks T := rfl

theorem toBlocks_fromBlocks : ∀ L : List Block, toBlocks (fromBlocks L) = L := by
  intro L
  induction L with
  | nil => rfl
  | cons B T ih =>
    obtain ⟨s0, s1, s2, s3, s4, s5, s6, s7, s8, s9, s10, s11, s12, s13, s14, s15⟩ := B
    rw [fromBlocks_cons]
    simp only [blockToList, List.cons_append, List.nil_append]
    simp [toBlocks, ih]

theorem fromBlocks_toBlocks : ∀ l : List Nat, l.length % 16 = 0 →
    fromBlocks (toBlocks l) = l := by
  intro l
  induction l using toBlocks.induct with
  | case1 b0 b1 b2 b3 b4 b5 b6 b7 b8 b9 b10 b11 b12 b13 b14 b15 rest ih =>
    intro h
    simp only [toBlocks]
    rw [fromBlocks_cons, ih (by simp at h ⊢; omega)]
    simp [blockToList]
  | case2 l h2 =>
    intro h
    match l, h2 with
    | [], _ => rfl
    | b0 :: rest, h2 =>
      exfalso
      rcases rest with _ | ⟨b1, rest⟩
      · simp at h
      rcases rest with _ | ⟨b2, rest⟩
      · simp at h
      rcases rest with _ | ⟨b3, rest⟩
      · simp at h
      rcases rest with _ | ⟨b4, rest⟩
      · simp at h
      rcases rest with _ | ⟨b5, rest⟩
      · simp at h
      rcases rest with _ | ⟨b6, rest⟩
      · simp at h
      rcases rest with _ | ⟨b7, rest⟩
      · simp at h
      rcases rest with _ | ⟨b8, rest⟩
      · simp at h
      rcases rest with _ | ⟨b9, rest⟩
      · simp at h
      rcases rest with _ | ⟨b10, rest⟩
      · simp at h
      rcases rest with _ | ⟨b11, rest⟩
      · simp at h
      rcases rest with _ | ⟨b12, rest⟩
      · simp at h
      rcases rest with _ | ⟨b13, rest⟩
      · simp at h
      rcases rest with _ | ⟨b14, rest⟩
      · simp at h
      rcases rest with _ | ⟨b15, rest⟩
      · simp at h
      exact h2 b0 b1 b2 b3 b4 b5 b6 b7 b8 b9 b10 b11 b12 b13 b14 b15 rest rfl

theorem fromBlocks_length (L : List Block) : (fromBlocks L).length = 16 * L.length := by
  induction L with
  | nil => rfl
  | cons B T ih =>
    rw [fromBlocks_cons]
    simp [blockToList, ih]
    omega

theorem blockLt_toBlocks {l : List Nat} (h : ∀ b ∈ l, b < 256) :
    ∀ B ∈ toBlocks l, BlockLt B := by
  induction l using toBlocks.induct with
  | case1 b0 b1 b2 b3 b4 b5 b6 b7 b8 b9 b10 b11 b12 b13 b14 b15 rest ih =>
    intro B hB
    simp only [toBlocks, List.mem_cons] at hB
    rcases hB with rfl | hB
    · refine ⟨?_, ?_, ?_, ?_, ?_, ?_, ?_, ?_, ?_, ?_, ?_, ?_, ?_, ?_, ?_, ?_⟩ <;>
        exact h _ (by simp)
    · exact ih (fun b hb => h b (by simp [hb])) B hB
  | case2 l h2 =>
    intro B hB
    rcases l with _ | ⟨b0, rest⟩
    · simp [toBlocks] at hB
    · rcases rest with _ | ⟨b1, rest⟩
      · simp [toBlocks] at hB
      all_goals
        rcases rest with _ | ⟨b2, rest⟩
        · simp [toBlocks] at hB
        rcases rest with _ | ⟨b3, rest⟩
        · simp [toBlocks] at hB
        rcases rest with _ | ⟨b4, rest⟩
        · simp [toBlocks] at hB
        rcases rest with _ | ⟨b5, rest⟩
        · simp [toBlocks] at hB
        rcases rest with _ | ⟨b6, rest⟩
        · simp [toBlocks] at hB
        rcases rest with _ | ⟨b7, rest⟩
        · simp [toBlocks] at hB
        rcases rest with _ | ⟨b8, rest⟩
        · simp [toBlocks] at hB
        rcases rest with _ | ⟨b9, rest⟩
        · simp [toBlocks] at hB
        rcases rest with _ | ⟨b10, rest⟩
        · simp [toBlocks] at hB
        rcases rest with _ | ⟨b11, rest⟩
        · simp [toBlocks] at hB
        rcases rest with _ | ⟨b12, rest⟩
        · simp [toBlocks] at hB
        rcases rest with _ | ⟨b13, rest⟩
        · simp [toBlocks] at hB
        rcases rest with _ | ⟨b14, rest⟩
        · simp [toBlocks] at hB
        rcases rest with _ | ⟨b15, rest⟩
        · simp [toBlocks] at hB
        exact absurd rfl (h2 b0 b1 b2 b3 b4 b5 b6 b7 b8 b9 b10 b11 b12 b13 b14 b15 rest)

theorem bytesLt_fromBlocks {L : List Block} (h : ∀ B ∈ L, BlockLt B) :
    ∀ b ∈ fromBlocks L, b < 256 := by
  induction L with
  | nil => intro b hb; simp [fromBlocks] at hb
  | cons B T ih =>
    intro b hb
    rw [fromBlocks_cons] at hb
    simp only [List.mem_append] at hb
    rcases hb with hb | hb
    · obtain ⟨h0, h1, h2, h3, h4, h5, h6, h7, h8, h9, h10, h11, h12, h13, h14, h15⟩ :=
        h B (by simp)
      simp only [blockToList, List.mem_cons] at hb
      rcases hb with rfl | rfl | rfl | rfl | rfl | rfl | rfl | rfl | rfl | rfl | rfl |
        rfl | rfl | rfl | rfl | rfl | hb
      all_goals first | assumption | simp at hb
    · exact ih (fun B2 hB2 => h B2 (by simp [hB2])) b hb

/-! ### CBC round trip -/

theorem blockLt_IVBLOCK : BlockLt IVBLOCK := by decide

theorem cbcDecBlocks_cbcEncBlocks : ∀ (ps : List Block) (prev : Block),
    (∀ B ∈ ps, BlockLt B) → BlockLt prev →
    cbcDecBlocks prev (cbcEncBlocks prev ps) = ps := by
  intro ps
  induction ps with
  | nil => intro prev _ _; rfl
  | cons p t ih =>
    intro prev hps hprev
    have hp : BlockLt p := hps p (by simp)
    have hxor : BlockLt (xorBlock p prev) := blockLt_xorBlock hp hprev
    simp only [cbcEncBlocks, cbcDecBlocks]
    rw [aesDecBlock_aesEncBlock hxor, xorBlock_cancel]
    rw [ih _ (fun B hB => hps B (by simp [hB])) (blockLt_aesEncBlock hxor)]

theorem cbcEncBlocks_length (ps : List Block) : ∀ prev,
    (cbcEncBlocks prev ps).length = ps.length := by
  induction ps with
  | nil => intro prev; rfl
  | cons p t ih => intro prev; simp [cbcEncBlocks, ih]

theorem blockLt_cbcEncBlocks : ∀ (ps : List Block) (prev : Block),
    (∀ B ∈ ps, BlockLt B) → BlockLt prev →
    ∀ C ∈ cbcEncBlocks prev ps, BlockLt C := by
  intro ps
  induction ps with
  | nil => intro prev _ _ C hC; simp [cbcEncBlocks] at hC
  | cons p t ih =>
    intro prev hps hprev C hC
    have hxor : BlockLt (xorBlock p prev) := blockLt_xorBlock (hps p (by simp)) hprev
    simp only [cbcEncBlocks, List.mem_cons] at hC
    rcases hC with rfl | hC
    · exact blockLt_aesEncBlock hxor
    · exact ih _ (fun B hB => hps B (by simp [hB])) (blockLt_aesEncBlock hxor) C hC

/-- The CBC decryption of the decoder inverts the CBC encryption of the
reference encoder on block-aligned byte sequences. -/
theorem aesCbcDecryptBytes_aesCbcEncryptBytes {p : List Nat}
    (hlen : p.length % 16 = 0) (hlt : ∀ b ∈ p, b < 256) :
    aesCbcDecryptBytes (aesCbcEncryptBytes p) = some p := by
  unfold aesCbcDecryptBytes aesCbcEncryptBytes
  rw [if_pos]
  · rw [toBlocks_fromBlocks,
      cbcDecBlocks_cbcEncBlocks _ _ (blockLt_toBlocks hlt) blockLt_IVBLOCK,
      fromBlocks_toBlocks _ hlen]
  · rw [fromBlocks_length]
    omega

theorem bytesLt_aesCbcEncryptBytes {p : List Nat} (hlt : ∀ b ∈ p, b < 256) :
    ∀ b ∈ aesCbcEncryptBytes p, b < 256 :=
  bytesLt_fromBlocks
    (blockLt_cbcEncBlocks _ _ (blockLt_toBlocks hlt) blockLt_IVBLOCK)

theorem length_aesCbcEncryptBytes (p : List Nat) :
    (aesCbcEncryptBytes p).length % 16 = 0 := by
  unfold aesCbcEncryptBytes
  rw [fromBlocks_length]
  omega

/-! ### Base64 round trip and padding leniency -/

theorem b64CharVal_b64EncChar : ∀ v, v < 64 → b64CharVal (b64EncChar v) = some v := by decide

theorem b64CharVal_eq : b64CharVal '=' = none := by decide

theorem b64Assemble_encode : ∀ bs : List Nat, (∀ b ∈ bs, b < 256) →
    b64Assemble ((b64EncodeUnpadded bs).filterMap b64CharVal) = bs := by
  intro bs
  induction bs using b64EncodeUnpadded.induct with
  | case1 b0 b1 b2 rest ih =>
    intro h
    have h0 : b0 < 256 := h b0 (by simp)
    have h1 : b1 < 256 := h b1 (by simp)
    have h2 : b2 < 256 := h b2 (by simp)
    simp only [b64EncodeUnpadded, List.filterMap_cons,
      b64CharVal_b64EncChar _ (show b0 / 4 < 64 by omega),
      b64CharVal_b64EncChar _ (show b0 % 4 * 16 + b1 / 16 < 64 by omega),
      b64CharVal_b64EncChar _ (show b1 % 16 * 4 + b2 / 64 < 64 by omega),
      b64CharVal_b64EncChar _ (show b2 % 64 < 64 by omega)]
    rw [show ∀ v0 v1 v2 v3 t, b64Assemble (v0 :: v1 :: v2 :: v3 :: t) =
      (v0 * 4 + v1 / 16) :: ((v1 % 16) * 16 + v2 / 4) :: ((v2 % 4) * 64 + v3) ::
        b64Assemble t from fun _ _ _ _ _ => rfl]
    rw [ih (fun b hb => h b (by simp [hb]))]
    refine congrArg₂ _ (by omega) (congrArg₂ _ (by omega) (congrArg₂ _ (by omega) rfl))
  | case2 b0 =>
    intro h
    have h0 : b0 < 256 := h b0 (by simp)
    simp only [b64EncodeUnpadded, List.filterMap_cons,
      b64CharVal_b64EncChar _ (show b0 / 4 < 64 by omega),
      b64CharVal_b64EncChar _ (show b0 % 4 * 16 < 64 by omega), List.filterMap_nil]
    show [b0 / 4 * 4 + b0 % 4 * 16 / 16] = [b0]
    refine congrArg₂ _ (by omega) rfl
  | case3 b0 b1 =>
    intro h
    have h0 : b0 < 256 := h b0 (by simp)
    have h1 : b1 < 256 := h b1 (by simp)
    simp only [b64EncodeUnpadded, List.filterMap_cons,
      b64CharVal_b64EncChar _ (show b0 / 4 < 64 by omega),
      b64CharVal_b64EncChar _ (show b0 % 4 * 16 + b1 / 16 < 64 by omega),
      b64CharVal_b64EncChar _ (show b1 % 16 * 4 < 64 by omega), List.filterMap_nil]
    show [b0 / 4 * 4 + (b0 % 4 * 16 + b1 / 16) / 16,
      (b0 % 4 * 16 + b1 / 16) % 16 * 16 + b1 % 16 * 4 / 4] = [b0, b1]
    refine congrArg₂ _ (by omega) (congrArg₂ _ (by omega) rfl)
  | case4 => intro _; rfl

/-- Appending the unconditional `'=='` padding never changes what Node's
decoder produces: `'='` is skipped. -/
theorem b64DecodeNode_append_pad (s : List Char) :
    b64DecodeNode (s ++ padChars) = b64DecodeNode s := by
  unfold b64DecodeNode padChars
  rw [List.filterMap_append]
  simp [List.filterMap_cons, b64CharVal_eq]

/-- The decoder's padded base64 decoding inverts the reference encoder's
unpadded base64 encoding. -/
theorem b64_roundtrip {bs : List Nat} (h : ∀ b ∈ bs, b < 256) :
    b64DecodeNode (b64EncodeUnpadded bs ++ padChars) = bs := by
  rw [b64DecodeNode_append_pad]
  exact b64Assemble_encode bs h

/-! ### UTF-8 decoding is the identity on ASCII byte sequences -/

theorem utf8Go_ascii : ∀ bs : List Nat, (∀ b ∈ bs, b < 128) → utf8Go none bs = bs := by
  intro bs
  induction bs with
  | nil => intro _; rfl
  | cons b t ih =>
    intro h
    have hb : b ≤ 0x7F := by have := h b (by simp); omega
    simp only [utf8Go, utf8Init, if_pos hb]
    rw [ih (fun x hx => h x (by simp [hx]))]
    rfl

theorem utf8Decode_ascii {bs : List Nat} (h : ∀ b ∈ bs, b < 128) : utf8Decode bs = bs :=
  utf8Go_ascii bs h

/-! ### Sanitization facts -/

theorem jsWsB_false_of_range {c : Nat} (h1 : 33 ≤ c) (h2 : c ≤ 126) : jsWsB c = false := by
  simp only [jsWsB, jsWsList, decide_eq_false_iff_not, List.mem_cons, List.not_mem_nil,
    or_false]
  omega

theorem dropWhile_all_false {p : Nat → Bool} {l : List Nat}
    (h : ∀ a ∈ l, p a = false) : l.dropWhile p = l := by
  cases l with
  | nil => rfl
  | cons a t =>
    rw [List.dropWhile_cons, h a (by simp)]
    simp

theorem jsTrim_sublist (l : List Nat) : (jsTrim l).Sublist l := by
  unfold jsTrim
  have h1 : (l.dropWhile jsWsB).Sublist l := List.dropWhile_sublist _
  have h2 : (((l.dropWhile jsWsB).reverse.dropWhile jsWsB)).Sublist
      (l.dropWhile jsWsB).reverse := List.dropWhile_sublist _
  have h3 := h2.reverse
  rw [List.reverse_reverse] at h3
  exact h3.trans h1

theorem sanitize_sublist (t : List Nat) : (sanitize t).Sublist t := by
  unfold sanitize
  exact (List.filter_sublist _).trans ((jsTrim_sublist _).trans (List.filter_sublist _))

theorem sanitize_range {t : List Nat} : ∀ c ∈ sanitize t, 32 ≤ c ∧ c ≤ 126 := by
  intro c hc
  unfold sanitize at hc
  have := List.of_mem_filter hc
  simpa [printableB] using this

theorem count_dropWhile_of_false {p : Nat → Bool} {c : Nat} (l : List Nat)
    (h : p c = false) : (l.dropWhile p).count c = l.count c := by
  have hsplit : l.takeWhile p ++ l.dropWhile p = l := List.takeWhile_append_dropWhile p l
  have hzero : (l.takeWhile p).count c = 0 := by
    rw [List.count_eq_zero]
    intro hm
    have := List.mem_takeWhile_imp hm
    rw [h] at this
    exact Bool.noConfusion this
  calc (l.dropWhile p).count c
      = (l.takeWhile p).count c + (l.dropWhile p).count c := by omega
    _ = (l.takeWhile p ++ l.dropWhile p).count c := (List.count_append _ _ _).symm
    _ = l.count c := by rw [hsplit]

theorem sanitize_count {t : List Nat} {c : Nat} (h1 : 33 ≤ c) (h2 : c ≤ 126) :
    (sanitize t).count c = t.count c := by
  have hws : jsWsB c = false := jsWsB_false_of_range h1 h2
  unfold sanitize jsTrim
  rw [List.count_filter (by simp [printableB]; omega)]
  rw [List.count_reverse, count_dropWhile_of_false _ hws, List.count_reverse,
    count_dropWhile_of_false _ hws]
  rw [List.count_filter (by simp; omega)]

theorem sanitize_cons_space (t : List Nat) : sanitize (32 :: t) = sanitize t := by
  unfold sanitize jsTrim
  rw [show List.filter (fun c => c != 0) (32 :: t) =
    32 :: List.filter (fun c => c != 0) t by simp]
  rw [show (32 :: List.filter (fun c => c != 0) t).dropWhile jsWsB =
    (List.filter (fun c => c != 0) t).dropWhile jsWsB by
      rw [List.dropWhile_cons]
      simp [show jsWsB 32 = true from rfl]]

theorem jsTrim_append_ws {y : List Nat} {c : Nat} (hc : jsWsB c = true) :
    jsTrim (y ++ [c]) = jsTrim y := by
  unfold jsTrim
  rw [List.dropWhile_append]
  by_cases he : (y.dropWhile jsWsB).isEmpty
  · simp only [he, if_pos]
    rw [show List.dropWhile jsWsB [c] = [] by simp [List.dropWhile_cons, hc]]
    rw [show (y.dropWhile jsWsB) = [] from by
      cases h2 : y.dropWhile jsWsB <;> simp_all]
  · simp only [he, if_neg, Bool.false_eq_true, not_false_eq_true]
    rw [List.reverse_append]
    simp only [List.reverse_cons, List.reverse_nil, List.nil_append, List.singleton_append]
    rw [List.dropWhile_cons, hc]
    simp

theorem sanitize_append_space (t : List Nat) : sanitize (t ++ [32]) = sanitize t := by
  unfold sanitize
  rw [show List.filter (fun c => c != 0) (t ++ [32]) =
    List.filter (fun c => c != 0) t ++ [32] by simp]
  rw [jsTrim_append_ws (by decide)]

theorem sanitize_id_of_range {t : List Nat} (h : ∀ c ∈ t, 33 ≤ c ∧ c ≤ 126) :
    sanitize t = t := by
  unfold sanitize
  have hfil : List.filter (fun c => c != 0) t = t := by
    rw [List.filter_eq_self]
    intro a ha
    have := (h a ha).1
    simp
    omega
  rw [hfil]
  have htrim : jsTrim t = t := by
    unfold jsTrim
    rw [dropWhile_all_false (fun a ha => jsWsB_false_of_range (h a ha).1 (h a ha).2)]
    rw [dropWhile_all_false (fun a ha => by
      rw [List.mem_reverse] at ha
      exact jsWsB_false_of_range (h a ha).1 (h a ha).2)]
    exact List.reverse_reverse t
  rw [htrim, List.filter_eq_self]
  intro a ha
  have := h a ha
  simp [printableB]
  omega

/-! ### Marker search facts -/

theorem firstIdxOf_some_prefix {pat : List Nat} : ∀ {l : List Nat} {i : Nat},
    firstIdxOf pat l = some i → pat.isPrefixOf (l.drop i) = true := by
  intro l
  induction l with
  | nil =>
    intro i h
    simp only [firstIdxOf] at h
    split at h
    next hc =>
      cases h
      have : pat = [] := by simpa [List.isEmpty_iff] using hc
      subst this
      rfl
    next => cases h
  | cons a t ih =>
    intro i h
    simp only [firstIdxOf] at h
    split at h
    next hp =>
      cases h
      simpa using hp
    next =>
      rw [Option.map_eq_some'] at h
      obtain ⟨j, hj, rfl⟩ := h
      rw [List.drop_succ_cons]
      exact ih hj

theorem firstIdxOf_isSome_of_prefix {pat : List Nat} : ∀ {l : List Nat} (i : Nat),
    pat.isPrefixOf (l.drop i) = true → (firstIdxOf pat l).isSome = true := by
  intro l
  induction l with
  | nil =>
    intro i h
    rw [List.drop_nil] at h
    cases pat with
    | nil => simp [firstIdxOf]
    | cons p ps => simp at h
  | cons a t ih =>
    intro i h
    simp only [firstIdxOf]
    split
    · rfl
    · cases i with
      | zero =>
        next hf =>
          rw [List.drop_zero] at h
          rw [h] at hf
          exact absurd rfl hf
      | succ j =>
        rw [List.drop_succ_cons] at h
        have := ih j h
        simpa using this

theorem cons_isPrefixOf_tail {a : Nat} {p m : List Nat}
    (h : (a :: p).isPrefixOf m = true) : p.isPrefixOf (m.drop 1) = true := by
  cases m with
  | nil => simp at h
  | cons b mt =>
    rw [List.isPrefixOf_cons₂] at h
    simp only [Bool.and_eq_true] at h
    exact h.2

theorem includes_hls_of_includes_slashHls {l : List Nat}
    (h : listIncludes slashHlsMarker l = true) : listIncludes hlsMarker l = true := by
  unfold listIncludes at h ⊢
  rw [Option.isSome_iff_exists] at h
  obtain ⟨i, hi⟩ := h
  have hpre := firstIdxOf_some_prefix hi
  have hpre2 : hlsMarker.isPrefixOf ((l.drop i).drop 1) = true :=
    cons_isPrefixOf_tail hpre
  rw [List.drop_drop] at hpre2
  exact firstIdxOf_isSome_of_prefix _ hpre2

/-! ### Stage decomposition of the decoder -/

theorem parseOffset_digitChar {d : Nat} (hd : d ≤ 9) (l : List Char) :
    parseOffset (digitChar d :: l) = some d := by
  interval_cases d <;> rfl

theorem extractHlsPath_of_includes {raw : List Nat}
    (h : listIncludes slashHlsMarker raw = true) :
    extractHlsPath raw = some (HLS_BASE_URL ++
      codesToString (raw.drop ((firstIdxOf hlsMarker raw).getD 0))) := by
  simp [extractHlsPath, h]

theorem extractHlsPath_none_of_not_includes {raw : List Nat}
    (h : listIncludes slashHlsMarker raw = false) : extractHlsPath raw = none := by
  simp [extractHlsPath, h]

theorem referenceEncode_data (d : Nat) (junk : List Char) (p : String) :
    (referenceEncode d junk p).data =
      digitChar d :: (junk ++ b64EncodeUnpadded (aesCbcEncryptBytes (strCodes p))) := rfl

theorem strCodes_lt256 {p : String} (h : ∀ c ∈ p.data, 33 ≤ c.toNat ∧ c.toNat ≤ 126) :
    ∀ b ∈ strCodes p, b < 256 := by
  intro b hb
  obtain ⟨c, hc, rfl⟩ := List.mem_map.mp hb
  have := (h c hc).2
  omega

theorem strCodes_lt128 {p : String} (h : ∀ c ∈ p.data, 33 ≤ c.toNat ∧ c.toNat ≤ 126) :
    ∀ b ∈ strCodes p, b < 128 := by
  intro b hb
  obtain ⟨c, hc, rfl⟩ := List.mem_map.mp hb
  have := (h c hc).2
  omega

theorem strCodes_range {p : String} (h : ∀ c ∈ p.data, 33 ≤ c.toNat ∧ c.toNat ≤ 126) :
    ∀ b ∈ strCodes p, 33 ≤ b ∧ b ≤ 126 := by
  intro b hb
  obtain ⟨c, hc, rfl⟩ := List.mem_map.mp hb
  exact h c hc

theorem payloadBytes_referenceEncode {d : Nat} {junk : List Char} {p : String}
    (hjunk : junk.length = d + 15)
    (hlt : ∀ b ∈ strCodes p, b < 256) :
    payloadBytes (referenceEncode d junk p).data d = aesCbcEncryptBytes (strCodes p) := by
  unfold payloadBytes
  rw [referenceEncode_data]
  rw [show (d + 16) = (d + 15) + 1 from rfl, List.drop_succ_cons, List.drop_left' hjunk]
  exact b64_roundtrip (bytesLt_aesCbcEncryptBytes hlt)

theorem decryptStreamPath_stages {s : String} {off : Nat} {plain : List Nat}
    (h1 : parseOffset s.data = some off)
    (h2 : aesCbcDecryptBytes (payloadBytes s.data off) = some plain) :
    decryptStreamPath s =
      match extractHlsPath (sanitize (utf8Decode plain)) with
      | some url => .ok url
      | none => .error .markerNotFound := by
  unfold decryptStreamPath
  rw [h1]
  dsimp only
  rw [h2]

theorem sanitize_strCodes_id {p : String}
    (hchars : ∀ c ∈ p.data, 33 ≤ c.toNat ∧ c.toNat ≤ 126) :
    sanitize (utf8Decode (strCodes p)) = strCodes p := by
  rw [utf8Decode_ascii (strCodes_lt128 hchars), sanitize_id_of_range (strCodes_range hchars)]

/-! ### Resolver facts -/

theorem fetchStreamUrl_quality {resp : TransportResult} {q : String} {m : MediaUrl}
    (h : fetchStreamUrl resp q = some m) : m.quality = q := by
  unfold fetchStreamUrl at h
  rcases resp with _ | env
  · cases h
  · dsimp only at h
    rcases henvd : env.data with _ | d <;> rw [henvd] at h
    · cases h
    · dsimp only at h
      rcases hsp : d.stream_path with _ | sp <;> rw [hsp] at h
      · cases h
      · dsimp only at h
        split at h
        · split at h
          · cases h
            rfl
          · cases h
        · cases h

/-! ## The claims -/

/-- C1 (counterexample): the spec's own example sanitized text
`"junk###hls/abc/def.m3u8"` contains the substring `hls/`, yet path
extraction yields no URL, because the code's success test is
`includes('/hls/')` and no slash precedes `hls/` here. This refutes the
claim that decode succeeds on every input whose sanitized plaintext
contains `hls/`. -/
theorem c1_counterexample :
    listIncludes hlsMarker (strCodes "junk###hls/abc/def.m3u8") = true ∧
    extractHlsPath (strCodes "junk###hls/abc/def.m3u8") = none := by
  constructor
  · rfl
  · rfl

/-- C1 (amended): for every decode run that reaches the extraction stage
with sanitized text `raw`: if `raw` contains `'/hls/'`, decode succeeds and
returns the fixed base host concatenated with the suffix of `raw` from the
first occurrence of `'hls/'`; if `raw` lacks `'hls/'` (in particular
whenever it lacks `'/hls/'`), decode fails with `MarkerNotFound`. -/
theorem c1_marker_extraction (s : String) (off : Nat) (plain : List Nat)
    (h1 : parseOffset s.data = some off)
    (h2 : aesCbcDecryptBytes (payloadBytes s.data off) = some plain) :
    (listIncludes slashHlsMarker (sanitize (utf8Decode plain)) = true →
      ∃ i, firstIdxOf hlsMarker (sanitize (utf8Decode plain)) = some i ∧
        decryptStreamPath s = .ok (HLS_BASE_URL ++
          codesToString ((sanitize (utf8Decode plain)).drop i))) ∧
    (listIncludes hlsMarker (sanitize (utf8Decode plain)) = false →
      decryptStreamPath s = .error .markerNotFound) := by
  constructor
  · intro hsl
    have hhls := includes_hls_of_includes_slashHls hsl
    unfold listIncludes at hhls
    rw [Option.isSome_iff_exists] at hhls
    obtain ⟨i, hi⟩ := hhls
    refine ⟨i, hi, ?_⟩
    rw [decryptStreamPath_stages h1 h2, extractHlsPath_of_includes hsl, hi]
    rfl
  · intro hno
    have hno2 : listIncludes slashHlsMarker (sanitize (utf8Decode plain)) = false := by
      cases h : listIncludes slashHlsMarker (sanitize (utf8Decode plain)) with
      | false => rfl
      | true => rw [includes_hls_of_includes_slashHls h] at hno; cases hno
    rw [decryptStreamPath_stages h1 h2, extractHlsPath_none_of_not_includes hno2]

/-- C1 (witness): a concrete run through the full decoder: the reference
encoding of `"b/hls/c1.m3u8qqq"` decodes to the base host plus the suffix
from the first `'hls/'`. -/
theorem c1_witness :
    ∃ i, firstIdxOf hlsMarker
        (sanitize (utf8Decode (strCodes "b/hls/c1.m3u8qqq"))) = some i ∧
      decryptStreamPath (referenceEncode 2 "ABCDEFGHIJKLMNOPQ".data "b/hls/c1.m3u8qqq") =
        .ok (HLS_BASE_URL ++ codesToString
          ((sanitize (utf8Decode (strCodes "b/hls/c1.m3u8qqq"))).drop i)) :=
  (c1_marker_extraction (referenceEncode 2 "ABCDEFGHIJKLMNOPQ".data "b/hls/c1.m3u8qqq")
    2 (strCodes "b/hls/c1.m3u8qqq") (by rfl) (by rfl)).1 (by rfl)

/-- C2 (counterexample): the 16-byte plaintext path `"hls/abc/def.m3u8"`,
reference-encoded with the same fixed key/IV and framing (offset digit 0 and
a 15-character framing region), is not recovered by decode: the sanitized
plaintext contains `hls/` but not `/hls/`, so decode fails with
`MarkerNotFound` instead of returning a URL. This refutes the round-trip
law over all plaintext paths. -/
theorem c2_counterexample :
    decryptStreamPath (referenceEncode 0 "ABCDEFGHIJKLMNO".data "hls/abc/def.m3u8") =
      .error .markerNotFound ∧
    listIncludes hlsMarker (strCodes "hls/abc/def.m3u8") = true := by
  constructor
  · rfl
  · rfl

/-- C2 (amended): the round trip holds for plaintexts that survive
sanitization and the slash-prefixed marker test: for every offset digit `d`,
framing region of length `d + 15`, and plaintext of printable non-space
ASCII (codes 33–126) whose byte length is a multiple of 16 and which
contains `'/hls/'`, decoding the reference-encoded field yields the fixed
base host concatenated with the plaintext's suffix from its first
occurrence of `'hls/'`. -/
theorem c2_roundtrip (d : Nat) (junk : List Char) (p : String)
    (hd : d ≤ 9) (hjunk : junk.length = d + 15)
    (hlen : p.data.length % 16 = 0)
    (hchars : ∀ c ∈ p.data, 33 ≤ c.toNat ∧ c.toNat ≤ 126)
    (hmarker : listIncludes slashHlsMarker (strCodes p) = true) :
    decryptStreamPath (referenceEncode d junk p) =
      .ok (HLS_BASE_URL ++ codesToString
        ((strCodes p).drop ((firstIdxOf hlsMarker (strCodes p)).getD 0))) := by
  have hlt := strCodes_lt256 hchars
  have h1 : parseOffset (referenceEncode d junk p).data = some d := by
    rw [referenceEncode_data]
    exact parseOffset_digitChar hd _
  have hplen : (strCodes p).length % 16 = 0 := by
    unfold strCodes
    rw [List.length_map]
    exact hlen
  have h2 : aesCbcDecryptBytes (payloadBytes (referenceEncode d junk p).data d) =
      some (strCodes p) := by
    rw [payloadBytes_referenceEncode hjunk hlt]
    exact aesCbcDecryptBytes_aesCbcEncryptBytes hplen hlt
  rw [decryptStreamPath_stages h1 h2, sanitize_strCodes_id hchars,
    extractHlsPath_of_includes hmarker]

/-- C2 (witness): the amended round trip at a concrete plaintext containing
`'/hls/'`. -/
theorem c2_witness :
    decryptStreamPath (referenceEncode 1 "ABCDEFGHIJKLMNOP".data "a/hls/ab.m3u8xyz") =
      .ok (HLS_BASE_URL ++ codesToString
        ((strCodes "a/hls/ab.m3u8xyz").drop
          ((firstIdxOf hlsMarker (strCodes "a/hls/ab.m3u8xyz")).getD 0))) :=
  c2_roundtrip 1 "ABCDEFGHIJKLMNOP".data "a/hls/ab.m3u8xyz"
    (by decide) (by decide) (by decide) (by decide) (by decide)

/-- C3 (counterexample): an input whose base64 payload decodes to 0 bytes —
not a positive multiple of 16 — does not fail with
`InvalidCiphertextLength`: the cipher accepts an empty input, and decode
fails later with `MarkerNotFound`. -/
theorem c3_counterexample :
    payloadBytes ("0123456789abcdef" : String).data 0 = [] ∧
    decryptStreamPath "0123456789abcdef" = .error .markerNotFound ∧
    decryptStreamPath "0123456789abcdef" ≠ .error .invalidCiphertextLength := by
  refine ⟨rfl, rfl, ?_⟩
  decide

/-- C3 (amended): whenever the base64 payload decodes to a byte count that
is not a multiple of 16, decode fails with `InvalidCiphertextLength` (the
length check precedes any block processing in the embedded cipher); a
0-byte payload instead passes the cipher trivially and fails with
`MarkerNotFound`. -/
theorem c3_cipher_length (s : String) (off : Nat)
    (h1 : parseOffset s.data = some off)
    (h2 : (payloadBytes s.data off).length % 16 ≠ 0) :
    decryptStreamPath s = .error .invalidCiphertextLength := by
  unfold decryptStreamPath
  rw [h1]
  dsimp only
  rw [show aesCbcDecryptBytes (payloadBytes s.data off) = none from by
    unfold aesCbcDecryptBytes
    rw [if_neg h2]]

/-- C3 (witness): a 20-character payload decodes to 15 bytes and decode
fails with `InvalidCiphertextLength`, exactly as the spec's example says. -/
theorem c3_witness :
    decryptStreamPath "0AAAAAAAAAAAAAAAAAAAAAAAAAAAAAAAAAA" =
      .error .invalidCiphertextLength :=
  c3_cipher_length "0AAAAAAAAAAAAAAAAAAAAAAAAAAAAAAAAAA" 0 (by rfl) (by decide)

/-- C4 (counterexample): on input `"5"` the slice start `5 + 16` exceeds
the length 1, but decode does not fail with `TruncatedPayload` — no such
check exists in the code; the empty payload flows through base64, an empty
decryption and sanitization, and decode fails with `MarkerNotFound`. -/
theorem c4_counterexample :
    decryptStreamPath "5" = .error .markerNotFound ∧
    decryptStreamPath "5" ≠ .error .truncatedPayload := by
  refine ⟨rfl, ?_⟩
  decide

/-- C4 (amended): when the first character is the digit `d` and `d + 16`
exceeds the input length, decode fails — but with `MarkerNotFound`: the
out-of-range slice is the empty payload, which decodes to zero bytes,
decrypts to empty text and lacks the marker. -/
theorem c4_truncated_slice (s : String) (c : Char) (rest : List Char) (d : Nat)
    (hdata : s.data = c :: rest)
    (hdig : 48 ≤ c.toNat ∧ c.toNat ≤ 57)
    (hd : d = c.toNat - 48)
    (hlen : s.data.length < d + 16) :
    decryptStreamPath s = .error .markerNotFound := by
  have h1 : parseOffset s.data = some d := by
    rw [hdata, hd]
    simp only [parseOffset]
    rw [if_pos hdig]
  have hdrop : s.data.drop (d + 16) = [] :=
    List.drop_eq_nil_of_le (by omega)
  unfold decryptStreamPath
  rw [h1]
  dsimp only
  rw [show payloadBytes s.data d = [] from by
    unfold payloadBytes
    rw [hdrop, List.nil_append]
    rfl]
  rfl

/-- C4 (witness): the amended behavior on the one-character input `"9"`. -/
theorem c4_witness : decryptStreamPath "9" = .error .markerNotFound :=
  c4_truncated_slice "9" '9' [] 9 rfl (by decide) (by decide) (by decide)

/-- C5: decode of the empty string fails with `MalformedOffset`, and decode
of any string whose first character is not an ASCII decimal digit fails
with `MalformedOffset`. -/
theorem c5_malformed_offset :
    decryptStreamPath "" = .error .malformedOffset ∧
    ∀ (c : Char) (rest : List Char), ¬(48 ≤ c.toNat ∧ c.toNat ≤ 57) →
      decryptStreamPath ⟨c :: rest⟩ = .error .malformedOffset := by
  constructor
  · rfl
  · intro c rest h
    unfold decryptStreamPath
    rw [show parseOffset (⟨c :: rest⟩ : String).data = none from by
      rw [show (⟨c :: rest⟩ : String).data = c :: rest from rfl]
      simp only [parseOffset]
      rw [if_neg h]]

/-- C5 (witness): `decode("x")` fails with `MalformedOffset`. -/
theorem c5_witness : decryptStreamPath "x" = .error .malformedOffset :=
  (c5_malformed_offset).2 'x' [] (by decide)

/-- C6: sanitization only drops characters and preserves the relative order
of the kept ones (sublist), keeps only code points 32–126 (so every null
byte, every control character 1–31 and every code point 127 and above is
removed), keeps every occurrence of every printable non-space character
33–126, and trims surrounding whitespace (a leading or trailing space is
removed). -/
theorem c6_sanitize (t : List Nat) :
    (sanitize t).Sublist t ∧
    (∀ c ∈ sanitize t, 32 ≤ c ∧ c ≤ 126) ∧
    (∀ c, 33 ≤ c → c ≤ 126 → (sanitize t).count c = t.count c) ∧
    sanitize (32 :: t) = sanitize t ∧
    sanitize (t ++ [32]) = sanitize t :=
  ⟨sanitize_sublist t, fun c hc => sanitize_range c hc,
    fun _ h1 h2 => sanitize_count h1 h2,
    sanitize_cons_space t, sanitize_append_space t⟩

/-- C6 (witness): the characterization evaluated on a concrete decoded text
holding a null byte, whitespace, control, high and printable characters. -/
theorem c6_witness :
    (sanitize [0, 32, 9, 104, 105, 200, 31, 32, 33, 10]).count 104 =
      ([0, 32, 9, 104, 105, 200, 31, 32, 33, 10] : List Nat).count 104 ∧
    sanitize (32 :: [0, 32, 9, 104, 105, 200, 31, 32, 33, 10]) =
      sanitize [0, 32, 9, 104, 105, 200, 31, 32, 33, 10] :=
  ⟨(c6_sanitize [0, 32, 9, 104, 105, 200, 31, 32, 33, 10]).2.2.1 104
      (by decide) (by decide),
    (c6_sanitize [0, 32, 9, 104, 105, 200, 31, 32, 33, 10]).2.2.2.1⟩

/-- C7: the decoder always passes the extracted payload with exactly two
`'='` characters appended to the base64 decoder, and that decoder accepts
the superfluous padding rather than rejecting it: appending `'=='` never
changes the decoded bytes. -/
theorem c7_base64_padding :
    (∀ data : List Char, ∀ off : Nat,
      payloadBytes data off = b64DecodeNode ((data.drop (off + 16)) ++ padChars)) ∧
    (∀ s : List Char, b64DecodeNode (s ++ padChars) = b64DecodeNode s) := by
  constructor
  · intro data off
    rfl
  · exact b64DecodeNode_append_pad

/-- C8: the payload decoder is total: for every input string it returns a
value — either a URL or one of the three failure kinds the code can signal
(`MalformedOffset`, `InvalidCiphertextLength`, `MarkerNotFound`) — and
never an uncaught fault. -/
theorem c8_total (s : String) :
    (∃ u, decryptStreamPath s = .ok u) ∨
    decryptStreamPath s = .error .malformedOffset ∨
    decryptStreamPath s = .error .invalidCiphertextLength ∨
    decryptStreamPath s = .error .markerNotFound := by
  unfold decryptStreamPath
  rcases h1 : parseOffset s.data with _ | off
  · right; left; rfl
  · rcases h2 : aesCbcDecryptBytes (payloadBytes s.data off) with _ | plain
    · right; right; left; dsimp only; rw [h2]
    · rcases h3 : extractHlsPath (sanitize (utf8Decode plain)) with _ | url
      · right; right; right; dsimp only; rw [h2]; dsimp only; rw [h3]
      · left; exact ⟨url, by dsimp only; rw [h2]; dsimp only; rw [h3]⟩

/-- C9: with the transport modelled as an input, `fetchStreamUrl` returns a
`MediaUrl` whose quality is `"high"` whenever the envelope has
`api_status = "success"` and a non-empty, decodable `stream_path`; and it
returns no result whenever `api_status` is not `"success"`. -/
theorem c9_resolver :
    (∀ (env : ApiEnvelope) (d : StreamData) (sp u : String),
      env.api_status = some "success" → env.data = some d →
      d.stream_path = some sp → decryptStreamPath sp = .ok u →
      ∃ m, fetchStreamUrl (.response env) "high" = some m ∧ m.quality = "high") ∧
    (∀ (env : ApiEnvelope) (q : String), env.api_status ≠ some "success" →
      fetchStreamUrl (.response env) q = none) := by
  constructor
  · intro env d sp u hstatus henvd hsp hdec
    have hne : sp ≠ "" := by
      intro he
      subst he
      rw [show decryptStreamPath "" = .error .malformedOffset from rfl] at hdec
      cases hdec
    refine ⟨⟨"high", jsOr d.bit_rate "", u, jsOr d.track_format "mp4"⟩, ?_, rfl⟩
    unfold fetchStreamUrl
    dsimp only
    rw [henvd]
    dsimp only
    rw [hsp]
    dsimp only
    rw [if_pos ⟨hstatus, hne⟩, hdec]
  · intro env q hne
    unfold fetchStreamUrl
    dsimp only
    rcases henvd : env.data with _ | d
    · rfl
    · dsimp only
      rcases hsp : d.stream_path with _ | sp
      · rfl
      · dsimp only
        rw [if_neg (fun hand => hne hand.1)]

/-- C9 (witness): a success envelope carrying a concrete decodable
encrypted path yields a `MediaUrl` of quality `"high"`. -/
theorem c9_witness :
    ∃ m, fetchStreamUrl
        (.response ⟨some "success",
          some ⟨some (referenceEncode 3 "ABCDEFGHIJKLMNOPQR".data "c/hls/d9.m3u8rrr"),
            some "320", some "mp4"⟩⟩) "high" = some m ∧
      m.quality = "high" :=
  (c9_resolver).1
    ⟨some "success",
      some ⟨some (referenceEncode 3 "ABCDEFGHIJKLMNOPQR".data "c/hls/d9.m3u8rrr"),
        some "320", some "mp4"⟩⟩
    ⟨some (referenceEncode 3 "ABCDEFGHIJKLMNOPQR".data "c/hls/d9.m3u8rrr"),
      some "320", some "mp4"⟩
    (referenceEncode 3 "ABCDEFGHIJKLMNOPQR".data "c/hls/d9.m3u8rrr")
    "https://vodhlsgaana-ebw.akamaized.net/hls/d9.m3u8rrr"
    rfl rfl rfl (by rfl)

/-- C10: `getMediaUrls` attempts only the highest quality tier: the result
has at most one element, every element has quality `"high"`, and the result
depends only on the transport's answer for the `"high"` tier (so no attempt
is made for `"medium"` or `"low"`). -/
theorem c10_single_attempt (trackId : String)
    (transport : String → String → TransportResult) :
    (getMediaUrls trackId transport).length ≤ 1 ∧
    (∀ m ∈ getMediaUrls trackId transport, m.quality = "high") ∧
    (∀ transport2 : String → String → TransportResult,
      transport trackId "high" = transport2 trackId "high" →
      getMediaUrls trackId transport = getMediaUrls trackId transport2) := by
  refine ⟨?_, ?_, ?_⟩
  · unfold getMediaUrls
    rcases h : fetchStreamUrl (transport trackId "high") "high" with _ | m <;> simp
  · intro m hm
    unfold getMediaUrls at hm
    rcases h : fetchStreamUrl (transport trackId "high") "high" with _ | m2 <;> rw [h] at hm
    · simp at hm
    · simp at hm
      subst hm
      exact fetchStreamUrl_quality h
  · intro transport2 he
    unfold getMediaUrls
    rw [he]

/-- C10 (witness): the tier-independence part applied to a concrete pair of
transports that agree on the `"high"` tier. -/
theorem c10_witness :
    getMediaUrls "track1" (fun _ _ => TransportResult.failure) =
      getMediaUrls "track1" (fun _ q => if q = "high" then .failure else .failure) :=
  (c10_single_attempt "track1" (fun _ _ => TransportResult.failure)).2.2
    (fun _ q => if q = "high" then .failure else .failure) (by rfl)

end GaanaAPI
